import Mathlib

/-!
Verification of the ray–primitive intersection kernel of a CUDA path tracer
(`src/intersections.h`): box, sphere and triangle intersection tests against
canonical object-space shapes, with world transforms.

Floating-point values are modelled as real numbers.  The slab parameters of the
box test are modelled as extended reals (`EReal`), because the box tester
deliberately divides by a possibly-zero direction component and relies on the
IEEE-754 convention that a nonzero value divided by zero is a signed infinity.
-/

noncomputable section

/-- A 3-component vector (`glm::vec3`). -/
structure Vec3 where
  x : ℝ
  y : ℝ
  z : ℝ

/-- A 4-component vector (`glm::vec4`). -/
structure Vec4 where
  x : ℝ
  y : ℝ
  z : ℝ
  w : ℝ

namespace Vec3

@[ext] theorem ext_iff' {a b : Vec3} (hx : a.x = b.x) (hy : a.y = b.y) (hz : a.z = b.z) :
    a = b := by
  cases a; cases b; simp_all

instance : Zero Vec3 := ⟨⟨0, 0, 0⟩⟩
instance : Add Vec3 := ⟨fun a b => ⟨a.x + b.x, a.y + b.y, a.z + b.z⟩⟩
instance : Sub Vec3 := ⟨fun a b => ⟨a.x - b.x, a.y - b.y, a.z - b.z⟩⟩
instance : Neg Vec3 := ⟨fun a => ⟨-a.x, -a.y, -a.z⟩⟩
instance : SMul ℝ Vec3 := ⟨fun s a => ⟨s * a.x, s * a.y, s * a.z⟩⟩

@[simp] theorem zero_x : (0 : Vec3).x = 0 := rfl
@[simp] theorem zero_y : (0 : Vec3).y = 0 := rfl
@[simp] theorem zero_z : (0 : Vec3).z = 0 := rfl
@[simp] theorem add_x (a b : Vec3) : (a + b).x = a.x + b.x := rfl
@[simp] theorem add_y (a b : Vec3) : (a + b).y = a.y + b.y := rfl
@[simp] theorem add_z (a b : Vec3) : (a + b).z = a.z + b.z := rfl
@[simp] theorem sub_x (a b : Vec3) : (a - b).x = a.x - b.x := rfl
@[simp] theorem sub_y (a b : Vec3) : (a - b).y = a.y - b.y := rfl
@[simp] theorem sub_z (a b : Vec3) : (a - b).z = a.z - b.z := rfl
@[simp] theorem neg_x (a : Vec3) : (-a).x = -a.x := rfl
@[simp] theorem neg_y (a : Vec3) : (-a).y = -a.y := rfl
@[simp] theorem neg_z (a : Vec3) : (-a).z = -a.z := rfl
@[simp] theorem smul_x (s : ℝ) (a : Vec3) : (s • a).x = s * a.x := rfl
@[simp] theorem smul_y (s : ℝ) (a : Vec3) : (s • a).y = s * a.y := rfl
@[simp] theorem smul_z (s : ℝ) (a : Vec3) : (s • a).z = s * a.z := rfl

/-- `glm::dot` on 3-vectors. -/
def dot (a b : Vec3) : ℝ := a.x * b.x + a.y * b.y + a.z * b.z

/-- `glm::cross`. -/
def cross (a b : Vec3) : Vec3 :=
  ⟨a.y * b.z - a.z * b.y, a.z * b.x - a.x * b.z, a.x * b.y - a.y * b.x⟩

/-- `glm::length`: the Euclidean norm. -/
def length (a : Vec3) : ℝ := Real.sqrt (dot a a)

/-- `glm::normalize`: `v` scaled by the reciprocal of its length.
(For `v = 0` the C++ value is NaN; here the real-division convention gives `0`.) -/
def normalize (a : Vec3) : Vec3 := (1 / length a) • a

/-- Component access `v[i]` for `i ∈ {0,1,2}`. -/
def nth (a : Vec3) : Fin 3 → ℝ
  | 0 => a.x
  | 1 => a.y
  | 2 => a.z

/-- The vector that is zero except for value `s` at component `i`
(the per-axis slab normal `n` of the box tester: `glm::vec3 n; n[xyz] = s;`,
with value-initialized remaining components). -/
def single (i : Fin 3) (s : ℝ) : Vec3 :=
  match i with
  | 0 => ⟨s, 0, 0⟩
  | 1 => ⟨0, s, 0⟩
  | 2 => ⟨0, 0, s⟩

end Vec3

namespace Vec4

instance : Add Vec4 := ⟨fun a b => ⟨a.x + b.x, a.y + b.y, a.z + b.z, a.w + b.w⟩⟩
instance : SMul ℝ Vec4 := ⟨fun s a => ⟨s * a.x, s * a.y, s * a.z, s * a.w⟩⟩

@[simp] theorem add4_x (a b : Vec4) : (a + b).x = a.x + b.x := rfl
@[simp] theorem add4_y (a b : Vec4) : (a + b).y = a.y + b.y := rfl
@[simp] theorem add4_z (a b : Vec4) : (a + b).z = a.z + b.z := rfl
@[simp] theorem add4_w (a b : Vec4) : (a + b).w = a.w + b.w := rfl
@[simp] theorem smul4_x (s : ℝ) (a : Vec4) : (s • a).x = s * a.x := rfl
@[simp] theorem smul4_y (s : ℝ) (a : Vec4) : (s • a).y = s * a.y := rfl
@[simp] theorem smul4_z (s : ℝ) (a : Vec4) : (s • a).z = s * a.z := rfl
@[simp] theorem smul4_w (s : ℝ) (a : Vec4) : (s • a).w = s * a.w := rfl

end Vec4

/-- `glm::vec4(v, 1.0f)`: a point in homogeneous coordinates. -/
def toPoint (v : Vec3) : Vec4 := ⟨v.x, v.y, v.z, 1⟩

/-- `glm::vec4(v, 0.0f)`: a direction/normal in homogeneous coordinates. -/
def toDir (v : Vec3) : Vec4 := ⟨v.x, v.y, v.z, 0⟩

/-- A 4×4 matrix (`glm::mat4`), stored as its four columns, as in GLM. -/
structure Mat4 where
  c0 : Vec4
  c1 : Vec4
  c2 : Vec4
  c3 : Vec4

namespace Mat4

/-- GLM matrix–vector product `m * v` (linear combination of the columns). -/
def mulVec (m : Mat4) (v : Vec4) : Vec4 :=
  v.x • m.c0 + v.y • m.c1 + v.z • m.c2 + v.w • m.c3

/-- `glm::transpose`. -/
def transpose (m : Mat4) : Mat4 :=
  ⟨⟨m.c0.x, m.c1.x, m.c2.x, m.c3.x⟩,
   ⟨m.c0.y, m.c1.y, m.c2.y, m.c3.y⟩,
   ⟨m.c0.z, m.c1.z, m.c2.z, m.c3.z⟩,
   ⟨m.c0.w, m.c1.w, m.c2.w, m.c3.w⟩⟩

/-- The identity matrix. -/
def id4 : Mat4 :=
  ⟨⟨1, 0, 0, 0⟩, ⟨0, 1, 0, 0⟩, ⟨0, 0, 1, 0⟩, ⟨0, 0, 0, 1⟩⟩

end Mat4

/-- `multiplyMV`: multiplies a `mat4` and a `vec4` and returns a `vec3`
clipped from the `vec4` (`src/intersections.h`). -/
def multiplyMV (m : Mat4) (v : Vec4) : Vec3 :=
  ⟨(m.mulVec v).x, (m.mulVec v).y, (m.mulVec v).z⟩

/-- Modelled from the spec: the `Ray` record of `sceneStructs.h` (not part of the
visible sources) — an origin point and a direction vector, the direction not
necessarily normalized by the caller. -/
structure Ray where
  origin : Vec3
  direction : Vec3

/-- Modelled from the spec: the `Geom` primitive-instance record of
`sceneStructs.h` (not part of the visible sources), restricted to the fields the
intersection tests read — the forward object→world transform, its inverse, and
the inverse-transpose used for normals.  The shape discriminator and material id
play no role in the tested routines. -/
structure Geom where
  transform : Mat4
  inverseTransform : Mat4
  invTranspose : Mat4

/-- The logical result of one intersection test: the returned distance together
with the final values of the three by-reference output channels
(`intersectionPoint`, `normal`, `outside`).  A test that misses returns `-1`
and the caller's original channel values. -/
structure HitResult where
  dist : ℝ
  point : Vec3
  normal : Vec3
  outside : Bool

/-- `getPointOnRay`: computes a point at parameter value `t` on ray `r`;
falls slightly short (by `.0001`) so that it does not intersect the object it
is hitting. -/
def getPointOnRay (r : Ray) (t : ℝ) : Vec3 :=
  r.origin + (t - 0.0001) • Vec3.normalize r.direction

/-- The exact (un-pulled-back) point at parameter value `t` on ray `r`, used to
compare the reported hit point with the true parametric intersection point. -/
def rawPointOnRay (r : Ray) (t : ℝ) : Vec3 :=
  r.origin + t • Vec3.normalize r.direction

/-- The object-space ray built identically at the top of all three testers:
origin through the full inverse transform (`w = 1`), direction through the
inverse transform (`w = 0`) and then normalized. -/
def objRay (g : Geom) (r : Ray) : Ray :=
  ⟨multiplyMV g.inverseTransform (toPoint r.origin),
   Vec3.normalize (multiplyMV g.inverseTransform (toDir r.direction))⟩

/-! ### Box intersection test -/

/-- IEEE-754 float division as used by the box slab test, valued in the
extended reals: a nonzero numerator divided by zero is the signed infinity of
the numerator's sign.  (The `0/0` case is a NaN in IEEE-754; it is not modelled
here and is mapped to `0`.  It occurs only for a ray origin lying exactly on a
slab plane with a direction parallel to it, a configuration outside every
property proved below.) -/
def ieeeDiv (a b : ℝ) : EReal :=
  if b = 0 then (if 0 < a then ⊤ else if a < 0 then ⊥ else 0)
  else ((a / b : ℝ) : EReal)

/-- The running state of the box tester's per-axis slab loop: the entry and
exit parameters and the normals of the axes that produced them. -/
structure SlabState where
  tmin : EReal
  tmax : EReal
  tmin_n : Vec3
  tmax_n : Vec3

/-- The initial slab state: `tmin = -1e38`, `tmax = 1e38`, value-initialized
normals. -/
def slabInit : SlabState :=
  ⟨((-1e38 : ℝ) : EReal), ((1e38 : ℝ) : EReal), 0, 0⟩

/-- One iteration of the box tester's slab loop for axis `xyz` of the
object-space ray `q`:

    float qdxyz = q.direction[xyz];
    float t1 = (-0.5f - q.origin[xyz]) / qdxyz;
    float t2 = (+0.5f - q.origin[xyz]) / qdxyz;
    float ta = glm::min(t1, t2);
    float tb = glm::max(t1, t2);
    glm::vec3 n;
    n[xyz] = t2 < t1 ? +1 : -1;
    if (ta > 0 && ta > tmin) \x7b tmin = ta; tmin_n = n; \x7d
    if (tb < tmax) \x7b tmax = tb; tmax_n = n; \x7d
-/
def slabStep (q : Ray) (xyz : Fin 3) (st : SlabState) : SlabState :=
  let qdxyz := q.direction.nth xyz
  let t1 := ieeeDiv (-(1/2) - q.origin.nth xyz) qdxyz
  let t2 := ieeeDiv (1/2 - q.origin.nth xyz) qdxyz
  let ta := min t1 t2
  let tb := max t1 t2
  let n := Vec3.single xyz (if t2 < t1 then 1 else -1)
  let st1 := if ta > 0 ∧ ta > st.tmin then { st with tmin := ta, tmin_n := n } else st
  if tb < st1.tmax then { st1 with tmax := tb, tmax_n := n } else st1

/-- The slab state after the three-axis loop `for (int xyz = 0; xyz < 3; ++xyz)`. -/
def slabFold (q : Ray) : SlabState :=
  slabStep q 2 (slabStep q 1 (slabStep q 0 slabInit))

/-- The effective object-space hit parameter of the box test: the entry
parameter `tmin`, replaced by the exit parameter `tmax` when `tmin ≤ 0`
(ray origin inside the box). -/
def boxEffT (g : Geom) (r : Ray) : ℝ :=
  let st := slabFold (objRay g r)
  (if st.tmin ≤ 0 then st.tmax else st.tmin).toReal

/-- `boxIntersectionTest`: test intersection between a ray and a transformed
cube; untransformed, the cube ranges from `-0.5` to `0.5` in each axis.
The caller's incoming values of the output channels are the arguments
`ip0`, `n0`, `out0`; the returned record packages the returned distance with
the final channel values. -/
def boxIntersectionTest (box : Geom) (r : Ray) (ip0 n0 : Vec3) (out0 : Bool) :
    HitResult :=
  let q := objRay box r
  let st := slabFold q
  if st.tmax ≥ st.tmin ∧ st.tmax > 0 then
    let inside := st.tmin ≤ 0
    let t : EReal := if inside then st.tmax else st.tmin
    let n : Vec3 := if inside then st.tmax_n else st.tmin_n
    let intersectionPoint := multiplyMV box.transform (toPoint (getPointOnRay q t.toReal))
    let normal := Vec3.normalize (multiplyMV box.invTranspose (toDir n))
    ⟨Vec3.length (r.origin - intersectionPoint), intersectionPoint, normal,
      if inside then false else true⟩
  else
    ⟨-1, ip0, n0, out0⟩

/-! ### Sphere intersection test -/

/-- The discriminant (`radicand`) of the sphere tester's quadratic, for the
object-space ray of geometry `g` and world ray `r`:
`vDotDirection² − (dot(origin, origin) − radius²)` with `radius = 0.5`. -/
def sphereRadicand (g : Geom) (r : Ray) : ℝ :=
  let rt := objRay g r
  Vec3.dot rt.origin rt.direction * Vec3.dot rt.origin rt.direction -
    (Vec3.dot rt.origin rt.origin - (1/2) ^ 2)

/-- The object-space hit parameter chosen by the sphere test: the smaller root
when both roots are positive, else the larger root. -/
def sphereEffT (g : Geom) (r : Ray) : ℝ :=
  let rt := objRay g r
  let vDotDirection := Vec3.dot rt.origin rt.direction
  let radicand := vDotDirection * vDotDirection -
    (Vec3.dot rt.origin rt.origin - (1/2) ^ 2)
  let squareRoot := Real.sqrt radicand
  let firstTerm := -vDotDirection
  let t1 := firstTerm + squareRoot
  let t2 := firstTerm - squareRoot
  if t1 > 0 ∧ t2 > 0 then min t1 t2 else max t1 t2

/-- `sphereIntersectionTest`: test intersection between a ray and a transformed
sphere; untransformed, the sphere always has radius `0.5` and is centered at
the origin. -/
def sphereIntersectionTest (sphere : Geom) (r : Ray) (ip0 n0 : Vec3) (out0 : Bool) :
    HitResult :=
  let rt := objRay sphere r
  let vDotDirection := Vec3.dot rt.origin rt.direction
  let radicand := vDotDirection * vDotDirection -
    (Vec3.dot rt.origin rt.origin - (1/2) ^ 2)
  if radicand < 0 then
    ⟨-1, ip0, n0, out0⟩
  else
    let squareRoot := Real.sqrt radicand
    let firstTerm := -vDotDirection
    let t1 := firstTerm + squareRoot
    let t2 := firstTerm - squareRoot
    if t1 < 0 ∧ t2 < 0 then
      ⟨-1, ip0, n0, out0⟩
    else
      let t := if t1 > 0 ∧ t2 > 0 then min t1 t2 else max t1 t2
      let objspaceIntersection := getPointOnRay rt t
      let intersectionPoint := multiplyMV sphere.transform (toPoint objspaceIntersection)
      let nrm := Vec3.normalize (multiplyMV sphere.invTranspose (toDir objspaceIntersection))
      ⟨Vec3.length (r.origin - intersectionPoint), intersectionPoint,
        if t1 > 0 ∧ t2 > 0 then nrm else -nrm,
        if t1 > 0 ∧ t2 > 0 then true else false⟩

/-! ### Triangle intersection test -/

/-- `std::numeric_limits<float>::epsilon()`, the machine epsilon used by GLM's
ray–triangle test. -/
def glmEpsilon : ℝ := 1 / 2 ^ 23

/-- Modelled from the spec: `glm::intersectRayTriangle` (GLM `gtx/intersect`,
not part of the repository), the standard one-sided Möller–Trumbore
ray–triangle barycentric test.  Returns `none` on a miss; on a hit returns the
written `baryPosition` vector `(u, v, t)`, whose `x`/`y` components are the
barycentric weights of the second and third vertices. -/
def intersectRayTriangle (orig dir v0 v1 v2 : Vec3) : Option Vec3 :=
  let e1 := v1 - v0
  let e2 := v2 - v0
  let p := Vec3.cross dir e2
  let a := Vec3.dot e1 p
  if a < glmEpsilon then none
  else
    let f := 1 / a
    let s := orig - v0
    let bx := f * Vec3.dot s p
    if bx < 0 then none
    else if bx > 1 then none
    else
      let q := Vec3.cross s e1
      let by' := f * Vec3.dot dir q
      if by' < 0 then none
      else if by' + bx > 1 then none
      else
        let bz := f * Vec3.dot e2 q
        if bz ≥ 0 then some ⟨bx, by', bz⟩ else none

/-- The flat corner normal synthesized for the first vertex when no usable
vertex normals are supplied: `normalize(cross(vertex2 - vertex1, vertex3 - vertex1))`. -/
def triFlat1 (v1 v2 v3 : Vec3) : Vec3 :=
  Vec3.normalize (Vec3.cross (v2 - v1) (v3 - v1))

/-- The flat corner normal synthesized for the second vertex:
`normalize(cross(vertex1 - vertex2, vertex3 - vertex2))`. -/
def triFlat2 (v1 v2 v3 : Vec3) : Vec3 :=
  Vec3.normalize (Vec3.cross (v1 - v2) (v3 - v2))

/-- The flat corner normal synthesized for the third vertex:
`normalize(cross(vertex1 - vertex3, vertex2 - vertex3))`. -/
def triFlat3 (v1 v2 v3 : Vec3) : Vec3 :=
  Vec3.normalize (Vec3.cross (v1 - v3) (v2 - v3))

/-- `has_normal`: all three supplied vertex normals have non-zero length
(a zero-length normal is the sentinel for missing `vn` data). -/
def triHasNormal (normal1 normal2 normal3 : Vec3) : Prop :=
  Vec3.length normal1 ≠ 0 ∧ Vec3.length normal2 ≠ 0 ∧ Vec3.length normal3 ≠ 0

instance (n1 n2 n3 : Vec3) : Decidable (triHasNormal n1 n2 n3) :=
  inferInstanceAs (Decidable (_ ∧ _ ∧ _))

/-- The three per-corner normals used by the smoothing step: the supplied
vertex normals when `has_normal`, else the synthesized flat corner normals. -/
def triCornerNormals (v1 v2 v3 normal1 normal2 normal3 : Vec3) : Vec3 × Vec3 × Vec3 :=
  if triHasNormal normal1 normal2 normal3 then (normal1, normal2, normal3)
  else (triFlat1 v1 v2 v3, triFlat2 v1 v2 v3, triFlat3 v1 v2 v3)

/-- The area-weighted (Phong) smoothed normal at barycentric position `bp`:
`normalize(n0*S0/S + n1*S1/S + n2*S2/S)` with `S` the full triangle area and
`S0, S1, S2` the sub-triangle areas at `bp`. -/
def triSmoothNormal (v1 v2 v3 normal1 normal2 normal3 bp : Vec3) : Vec3 :=
  let ns := triCornerNormals v1 v2 v3 normal1 normal2 normal3
  let S := 1/2 * Vec3.length (Vec3.cross (v1 - v2) (v3 - v2))
  let S0 := 1/2 * Vec3.length (Vec3.cross (v2 - bp) (v3 - bp))
  let S1 := 1/2 * Vec3.length (Vec3.cross (v1 - bp) (v3 - bp))
  let S2 := 1/2 * Vec3.length (Vec3.cross (v1 - bp) (v2 - bp))
  Vec3.normalize ((S0 / S) • ns.1 + (S1 / S) • ns.2.1 + (S2 / S) • ns.2.2)

/-- `triangleInteractionTest`: per-triangle ray intersection with smoothed
normals.  The vertex and normal by-reference parameters are read-only in the
source; the output channels are `intersectionPoint`, `normal` and `outside`
(the latter mutated only when the final normal is flipped). -/
def triangleInteractionTest (mesh : Geom) (r : Ray) (ip0 : Vec3)
    (vertex1 vertex2 vertex3 normal1 normal2 normal3 : Vec3)
    (n0 : Vec3) (out0 : Bool) : HitResult :=
  let rt := objRay mesh r
  match intersectRayTriangle rt.origin rt.direction vertex1 vertex2 vertex3 with
  | none => ⟨-1, ip0, n0, out0⟩
  | some bary_coords =>
    let bary_position := (1 - bary_coords.x - bary_coords.y) • vertex1 +
      bary_coords.x • vertex2 + bary_coords.y • vertex3
    let intersectionPoint := multiplyMV mesh.transform (toPoint bary_position)
    let smoothNormal :=
      triSmoothNormal vertex1 vertex2 vertex3 normal1 normal2 normal3 bary_position
    let normal := Vec3.normalize (multiplyMV mesh.invTranspose (toDir smoothNormal))
    if Vec3.dot normal r.direction > 0 then
      ⟨Vec3.length (r.origin - intersectionPoint), intersectionPoint, -normal, false⟩
    else
      ⟨Vec3.length (r.origin - intersectionPoint), intersectionPoint, normal, out0⟩

/-- The identity-transform primitive instance, used by the witnesses. -/
def gId : Geom := ⟨Mat4.id4, Mat4.id4, Mat4.id4⟩

/-! ### Vector algebra lemmas -/

namespace Vec3

theorem dot_smul_left (a : ℝ) (v w : Vec3) : dot (a • v) w = a * dot v w := by
  simp [dot]; ring

theorem dot_smul_right (a : ℝ) (v w : Vec3) : dot v (a • w) = a * dot v w := by
  simp [dot]; ring

theorem dot_add_left (u v w : Vec3) : dot (u + v) w = dot u w + dot v w := by
  simp [dot]; ring

theorem dot_zero_left (v : Vec3) : dot 0 v = 0 := by
  simp [dot]

theorem dot_zero_right (v : Vec3) : dot v 0 = 0 := by
  simp [dot]

theorem dot_neg_left (v w : Vec3) : dot (-v) w = -dot v w := by
  simp [dot]; ring

theorem dot_self_nonneg (v : Vec3) : 0 ≤ dot v v := by
  have hx := mul_self_nonneg v.x
  have hy := mul_self_nonneg v.y
  have hz := mul_self_nonneg v.z
  unfold dot; linarith

theorem dot_self_eq_zero_iff (v : Vec3) : dot v v = 0 ↔ v = 0 := by
  constructor
  · intro h
    have hx := mul_self_nonneg v.x
    have hy := mul_self_nonneg v.y
    have hz := mul_self_nonneg v.z
    unfold dot at h
    ext <;> simp only [zero_x, zero_y, zero_z] <;> nlinarith
  · intro h; subst h; simp [dot]

theorem length_nonneg (v : Vec3) : 0 ≤ length v := Real.sqrt_nonneg _

theorem length_eq_zero_iff (v : Vec3) : length v = 0 ↔ v = 0 := by
  rw [length, Real.sqrt_eq_zero (dot_self_nonneg v), dot_self_eq_zero_iff]

theorem length_pos (v : Vec3) (h : v ≠ 0) : 0 < length v :=
  lt_of_le_of_ne (length_nonneg v) (fun he => h ((length_eq_zero_iff v).mp he.symm))

theorem length_neg (v : Vec3) : length (-v) = length v := by
  unfold length
  congr 1
  simp only [dot, neg_x, neg_y, neg_z]
  ring

theorem length_smul (a : ℝ) (v : Vec3) : length (a • v) = |a| * length v := by
  unfold length
  have : dot (a • v) (a • v) = a ^ 2 * dot v v := by simp [dot]; ring
  rw [this, Real.sqrt_mul (sq_nonneg a), Real.sqrt_sq_eq_abs]

theorem smul_smul' (a b : ℝ) (v : Vec3) : a • (b • v) = (a * b) • v := by
  ext <;> simp <;> ring

theorem neg_neg' (v : Vec3) : -(-v) = v := by
  ext <;> simp

theorem one_smul' (v : Vec3) : (1 : ℝ) • v = v := by
  ext <;> simp

theorem smul_zero' (a : ℝ) : a • (0 : Vec3) = 0 := by
  ext <;> simp

theorem zero_smul' (v : Vec3) : (0 : ℝ) • v = 0 := by
  ext <;> simp

theorem eq_length_smul_normalize (v : Vec3) : v = length v • normalize v := by
  by_cases h : v = 0
  · subst h
    simp [normalize, smul_zero']
  · rw [normalize, smul_smul', mul_one_div, div_self (ne_of_gt (length_pos v h)), one_smul']

theorem dot_normalize_left (v w : Vec3) : dot (normalize v) w = dot v w / length v := by
  rw [normalize, dot_smul_left, one_div, inv_mul_eq_div]

theorem length_normalize (v : Vec3) (h : v ≠ 0) : length (normalize v) = 1 := by
  rw [normalize, length_smul, abs_of_pos (one_div_pos.mpr (length_pos v h)), one_div,
    inv_mul_cancel₀ (ne_of_gt (length_pos v h))]

theorem normalize_normalize (v : Vec3) : normalize (normalize v) = normalize v := by
  by_cases h : v = 0
  · subst h
    simp [normalize, smul_zero']
  · calc normalize (normalize v) = (1 / length (normalize v)) • normalize v := rfl
    _ = normalize v := by rw [length_normalize v h, div_one, one_smul']

theorem normalize_neg (v : Vec3) : normalize (-v) = -normalize v := by
  unfold normalize
  rw [length_neg]
  ext <;> simp

theorem normalize_zero : normalize (0 : Vec3) = 0 := by
  simp [normalize, smul_zero']

/-- The sign of `dot (normalize v) w` is the sign of `dot v w`. -/
theorem dot_normalize_left_nonpos (v w : Vec3) (h : dot v w ≤ 0) :
    dot (normalize v) w ≤ 0 := by
  rw [dot_normalize_left]
  exact div_nonpos_of_nonpos_of_nonneg h (length_nonneg v)

theorem length_sq_eq_dot_self (v : Vec3) : length v ^ 2 = dot v v :=
  Real.sq_sqrt (dot_self_nonneg v)

theorem dot_normalize_self (v : Vec3) (h : v ≠ 0) :
    dot (normalize v) (normalize v) = 1 := by
  rw [← length_sq_eq_dot_self, length_normalize v h, one_pow]

theorem dot_single_left (i : Fin 3) (s : ℝ) (v : Vec3) :
    dot (single i s) v = s * v.nth i := by
  fin_cases i <;> simp [single, nth, dot]

theorem cross_zero_left (w : Vec3) : cross 0 w = 0 := by
  ext <;> simp [cross]

theorem cross_zero_right (v : Vec3) : cross v 0 = 0 := by
  ext <;> simp [cross]

theorem length_zero : length (0 : Vec3) = 0 := by
  rw [length, dot_zero_left, Real.sqrt_zero]

theorem add_zero' (v : Vec3) : v + 0 = v := by
  ext <;> simp

theorem zero_add' (v : Vec3) : 0 + v = v := by
  ext <;> simp

theorem sub_self' (v : Vec3) : v - v = 0 := by
  ext <;> simp

/-- The second corner's edge cross product is the negation of the first's. -/
theorem cross_edge21 (v1 v2 v3 : Vec3) :
    cross (v1 - v2) (v3 - v2) = -(cross (v2 - v1) (v3 - v1)) := by
  ext <;> simp [cross] <;> ring

/-- The third corner's edge cross product equals the first's. -/
theorem cross_edge31 (v1 v2 v3 : Vec3) :
    cross (v1 - v3) (v2 - v3) = cross (v2 - v1) (v3 - v1) := by
  ext <;> simp [cross] <;> ring

end Vec3

/-- Transposition swaps the sides of the truncated matrix–vector product under
the 3-component dot product (for `w = 0` homogeneous vectors). -/
theorem dot_multiplyMV_transpose (m : Mat4) (n v : Vec3) :
    Vec3.dot (multiplyMV (Mat4.transpose m) (toDir n)) v =
      Vec3.dot n (multiplyMV m (toDir v)) := by
  simp [Vec3.dot, multiplyMV, Mat4.transpose, Mat4.mulVec, toDir]
  ring

/-- `multiplyMV` is affine: translating a homogeneous point by `s` times a
homogeneous direction translates its image accordingly. -/
theorem multiplyMV_point_add_smul (m : Mat4) (p d : Vec3) (s : ℝ) :
    multiplyMV m (toPoint (p + s • d)) =
      multiplyMV m (toPoint p) + s • multiplyMV m (toDir d) := by
  ext <;> simp [multiplyMV, Mat4.mulVec, toPoint, toDir] <;> ring

@[simp] theorem multiplyMV_id4_point (v : Vec3) : multiplyMV Mat4.id4 (toPoint v) = v := by
  ext <;> simp [multiplyMV, Mat4.mulVec, Mat4.id4, toPoint]

@[simp] theorem multiplyMV_id4_dir (v : Vec3) : multiplyMV Mat4.id4 (toDir v) = v := by
  ext <;> simp [multiplyMV, Mat4.mulVec, Mat4.id4, toDir]

@[simp] theorem transpose_id4 : Mat4.transpose Mat4.id4 = Mat4.id4 := by
  simp [Mat4.transpose, Mat4.id4]

/-! ### Slab-loop lemmas -/

/-- An axis whose direction component is zero and whose origin component lies
strictly inside the slab contributes no constraint: the two divisions return
`⊥` and `⊤`, and neither comparison fires, so the loop body leaves the state
unchanged. -/
theorem slabStep_parallel_inside (q : Ray) (i : Fin 3) (st : SlabState)
    (hd : q.direction.nth i = 0)
    (h1 : -(1/2 : ℝ) < q.origin.nth i) (h2 : q.origin.nth i < 1/2) :
    slabStep q i st = st := by
  have ht1 : ieeeDiv (-(1/2) - q.origin.nth i) (q.direction.nth i) = ⊥ := by
    rw [hd, ieeeDiv, if_pos rfl, if_neg (by linarith), if_pos (by linarith)]
  have ht2 : ieeeDiv (1/2 - q.origin.nth i) (q.direction.nth i) = ⊤ := by
    rw [hd, ieeeDiv, if_pos rfl, if_pos (by linarith)]
  rw [slabStep]
  simp only [ht1, ht2]
  rw [min_eq_left bot_le, max_eq_right bot_le]
  rw [if_neg (by simp [not_lt_bot]), if_neg (by simp [not_top_lt])]

/-- The sign written into the per-axis slab normal is always opposite to the
sign of the direction component, so every normal stored in the slab state
keeps a non-positive dot product with the object-space direction. -/
theorem slabStep_normals_nonpos (q : Ray) (i : Fin 3) (st : SlabState)
    (h : Vec3.dot st.tmin_n q.direction ≤ 0 ∧ Vec3.dot st.tmax_n q.direction ≤ 0) :
    Vec3.dot (slabStep q i st).tmin_n q.direction ≤ 0 ∧
    Vec3.dot (slabStep q i st).tmax_n q.direction ≤ 0 := by
  simp only [slabStep]
  set nv := Vec3.single i
    (if ieeeDiv (1/2 - q.origin.nth i) (q.direction.nth i) <
        ieeeDiv (-(1/2) - q.origin.nth i) (q.direction.nth i) then (1:ℝ) else -1) with hnv
  have hn : Vec3.dot nv q.direction ≤ 0 := by
    rw [hnv, Vec3.dot_single_left]
    rcases lt_trichotomy (q.direction.nth i) 0 with hd | hd | hd
    · rw [if_pos]
      · rw [one_mul]; linarith
      · rw [ieeeDiv, if_neg (ne_of_lt hd), ieeeDiv, if_neg (ne_of_lt hd)]
        exact EReal.coe_lt_coe_iff.mpr ((div_lt_div_right_of_neg hd).mpr (by linarith))
    · rw [hd, mul_zero]
    · rw [if_neg]
      · rw [neg_one_mul]; linarith
      · rw [ieeeDiv, if_neg (ne_of_gt hd), ieeeDiv, if_neg (ne_of_gt hd)]
        exact not_lt.mpr (EReal.coe_le_coe_iff.mpr
          ((div_le_div_iff_of_pos_right hd).mpr (by linarith)))
  split_ifs <;> constructor <;> simp_all

/-- After the whole slab loop, both stored normals have non-positive dot
product with the object-space direction. -/
theorem slabFold_normals_nonpos (q : Ray) :
    Vec3.dot (slabFold q).tmin_n q.direction ≤ 0 ∧
    Vec3.dot (slabFold q).tmax_n q.direction ≤ 0 := by
  rw [slabFold]
  exact slabStep_normals_nonpos q 2 _ (slabStep_normals_nonpos q 1 _
    (slabStep_normals_nonpos q 0 slabInit
      (by constructor <;> simp [slabInit, Vec3.dot_zero_left])))

/-! ### Concrete geometries and rays used in the witnesses -/

theorem objRay_gId (r : Ray) : objRay gId r = ⟨r.origin, Vec3.normalize r.direction⟩ := by
  simp [objRay, gId]

theorem normalize_unitZ : Vec3.normalize ⟨0, 0, 1⟩ = ⟨0, 0, 1⟩ := by
  unfold Vec3.normalize Vec3.length Vec3.dot
  norm_num
  ext <;> simp

theorem slabFold_rayA :
    slabFold ⟨⟨0, 0, -2⟩, ⟨0, 0, 1⟩⟩ =
      ⟨((3/2 : ℝ) : EReal), ((5/2 : ℝ) : EReal), ⟨0, 0, -1⟩, ⟨0, 0, -1⟩⟩ := by
  rw [slabFold,
    slabStep_parallel_inside _ 0 _ (by norm_num [Vec3.nth]) (by norm_num [Vec3.nth])
      (by norm_num [Vec3.nth]),
    slabStep_parallel_inside _ 1 _ (by norm_num [Vec3.nth]) (by norm_num [Vec3.nth])
      (by norm_num [Vec3.nth])]
  rw [slabStep]
  norm_num [Vec3.nth, ieeeDiv, slabInit, Vec3.single, min_def, max_def,
    ← EReal.coe_neg, EReal.coe_le_coe_iff, EReal.coe_lt_coe_iff, EReal.coe_pos]

theorem normalize_of_unit (v : Vec3) (h : Vec3.dot v v = 1) : Vec3.normalize v = v := by
  unfold Vec3.normalize Vec3.length
  rw [h, Real.sqrt_one, div_one, Vec3.one_smul']

theorem length_00a (a : ℝ) : Vec3.length ⟨0, 0, a⟩ = |a| := by
  unfold Vec3.length Vec3.dot
  norm_num [Real.sqrt_mul_self_eq_abs]

/-- The box test on the identity unit box for the ray from `(0,0,-2)` toward
`(0,0,1)`: entry at the `z = -0.5` face, with the `0.0001` pullback baked into
the reported point and distance. -/
theorem boxEval_rayA (ip0 n0 : Vec3) (out0 : Bool) :
    boxIntersectionTest gId ⟨⟨0, 0, -2⟩, ⟨0, 0, 1⟩⟩ ip0 n0 out0 =
      ⟨14999/10000, ⟨0, 0, -(5001/10000)⟩, ⟨0, 0, -1⟩, true⟩ := by
  have hq : objRay gId ⟨⟨0, 0, -2⟩, ⟨0, 0, 1⟩⟩ = ⟨⟨0, 0, -2⟩, ⟨0, 0, 1⟩⟩ := by
    rw [objRay_gId, normalize_unitZ]
  simp only [boxIntersectionTest, hq, slabFold_rayA]
  rw [if_pos (by constructor <;> norm_num [EReal.coe_le_coe_iff, EReal.coe_pos])]
  rw [if_neg (by norm_num [← EReal.coe_neg, EReal.coe_le_coe_iff]),
    if_neg (by norm_num [← EReal.coe_neg, EReal.coe_le_coe_iff]),
    if_neg (by norm_num [← EReal.coe_neg, EReal.coe_le_coe_iff])]
  rw [EReal.toReal_coe]
  have hp : getPointOnRay ⟨⟨0, 0, -2⟩, ⟨0, 0, 1⟩⟩ (3/2) = ⟨0, 0, -(5001/10000)⟩ := by
    rw [getPointOnRay, normalize_unitZ]
    ext <;> norm_num
  rw [hp]
  have hmp : multiplyMV gId.transform (toPoint ⟨0, 0, -(5001/10000)⟩) =
      ⟨0, 0, -(5001/10000)⟩ := by
    show multiplyMV Mat4.id4 _ = _
    rw [multiplyMV_id4_point]
  have hmn : multiplyMV gId.invTranspose (toDir ⟨0, 0, -1⟩) = ⟨0, 0, -1⟩ := by
    show multiplyMV Mat4.id4 _ = _
    rw [multiplyMV_id4_dir]
  rw [hmp, hmn, normalize_of_unit _ (by norm_num [Vec3.dot])]
  have hdiff : (⟨0, 0, -2⟩ - ⟨0, 0, -(5001/10000)⟩ : Vec3) = ⟨0, 0, -(14999/10000)⟩ := by
    ext <;> norm_num
  rw [hdiff, length_00a]
  norm_num

/-- `normalize` of a vector supported on the `z` axis. -/
theorem normalize_00 (a : ℝ) : Vec3.normalize ⟨0, 0, a⟩ = ⟨0, 0, a / |a|⟩ := by
  unfold Vec3.normalize
  rw [length_00a]
  ext <;> simp [div_eq_mul_inv, mul_comm]

theorem normalize_negUnitZ : Vec3.normalize ⟨0, 0, -1⟩ = ⟨0, 0, -1⟩ :=
  normalize_of_unit _ (by norm_num [Vec3.dot])

/-- The box test misses the identity unit box for the ray from `(0,0,-2)`
toward `(0,0,-1)` and leaves the output channels unchanged. -/
theorem boxEval_missRay (ip0 n0 : Vec3) (out0 : Bool) :
    boxIntersectionTest gId ⟨⟨0, 0, -2⟩, ⟨0, 0, -1⟩⟩ ip0 n0 out0 = ⟨-1, ip0, n0, out0⟩ := by
  have hq : objRay gId ⟨⟨0, 0, -2⟩, ⟨0, 0, -1⟩⟩ = ⟨⟨0, 0, -2⟩, ⟨0, 0, -1⟩⟩ := by
    rw [objRay_gId, normalize_negUnitZ]
  have hst : slabFold ⟨⟨0, 0, -2⟩, ⟨0, 0, -1⟩⟩ =
      ⟨((-1e38 : ℝ) : EReal), ((-3/2 : ℝ) : EReal), 0, ⟨0, 0, 1⟩⟩ := by
    rw [slabFold,
      slabStep_parallel_inside _ 0 _ (by norm_num [Vec3.nth]) (by norm_num [Vec3.nth])
        (by norm_num [Vec3.nth]),
      slabStep_parallel_inside _ 1 _ (by norm_num [Vec3.nth]) (by norm_num [Vec3.nth])
        (by norm_num [Vec3.nth])]
    rw [slabStep]
    norm_num [Vec3.nth, ieeeDiv, slabInit, Vec3.single, min_def, max_def,
      ← EReal.coe_neg, EReal.coe_le_coe_iff, EReal.coe_lt_coe_iff, EReal.coe_pos]
  simp only [boxIntersectionTest, hq, hst]
  rw [if_neg (by norm_num [← EReal.coe_neg, EReal.coe_pos])]

/-- The box test for a ray starting just inside the `z = 0.5` face and heading
out: the effective parameter is `t = 0.00002`, smaller than half the `0.0001`
pullback, so the reported distance `0.00008` exceeds the exact geometric
distance `0.00002`. -/
theorem objRay_gId_rayB : objRay gId ⟨⟨0, 0, 24999/50000⟩, ⟨0, 0, 1⟩⟩ =
    ⟨⟨0, 0, 24999/50000⟩, ⟨0, 0, 1⟩⟩ := by
  rw [objRay_gId, normalize_unitZ]

theorem slabFold_rayB : slabFold ⟨⟨0, 0, 24999/50000⟩, ⟨0, 0, 1⟩⟩ =
    ⟨((-1e38 : ℝ) : EReal), ((1/50000 : ℝ) : EReal), 0, ⟨0, 0, -1⟩⟩ := by
  rw [slabFold,
    slabStep_parallel_inside _ 0 _ (by norm_num [Vec3.nth]) (by norm_num [Vec3.nth])
      (by norm_num [Vec3.nth]),
    slabStep_parallel_inside _ 1 _ (by norm_num [Vec3.nth]) (by norm_num [Vec3.nth])
      (by norm_num [Vec3.nth])]
  rw [slabStep]
  norm_num [Vec3.nth, ieeeDiv, slabInit, Vec3.single, min_def, max_def,
    ← EReal.coe_neg, EReal.coe_le_coe_iff, EReal.coe_lt_coe_iff, EReal.coe_pos]

theorem boxEval_rayB (ip0 n0 : Vec3) (out0 : Bool) :
    boxIntersectionTest gId ⟨⟨0, 0, 24999/50000⟩, ⟨0, 0, 1⟩⟩ ip0 n0 out0 =
      ⟨4/50000, ⟨0, 0, 24995/50000⟩, ⟨0, 0, -1⟩, false⟩ := by
  simp only [boxIntersectionTest, objRay_gId_rayB, slabFold_rayB]
  rw [if_pos (by constructor <;> norm_num [← EReal.coe_neg, EReal.coe_le_coe_iff, EReal.coe_pos])]
  rw [if_pos (by norm_num [← EReal.coe_neg, EReal.coe_le_coe_iff]),
    if_pos (by norm_num [← EReal.coe_neg, EReal.coe_le_coe_iff]),
    if_pos (by norm_num [← EReal.coe_neg, EReal.coe_le_coe_iff])]
  rw [EReal.toReal_coe]
  have hp : getPointOnRay ⟨⟨0, 0, 24999/50000⟩, ⟨0, 0, 1⟩⟩ (1/50000) =
      ⟨0, 0, 24995/50000⟩ := by
    rw [getPointOnRay, normalize_unitZ]
    ext <;> norm_num
  rw [hp]
  have hmp : multiplyMV gId.transform (toPoint ⟨0, 0, 24995/50000⟩) =
      ⟨0, 0, 24995/50000⟩ := by
    show multiplyMV Mat4.id4 _ = _
    rw [multiplyMV_id4_point]
  have hmn : multiplyMV gId.invTranspose (toDir ⟨0, 0, -1⟩) = ⟨0, 0, -1⟩ := by
    show multiplyMV Mat4.id4 _ = _
    rw [multiplyMV_id4_dir]
  rw [hmp, hmn, normalize_negUnitZ]
  have hdiff : (⟨0, 0, 24999/50000⟩ - ⟨0, 0, 24995/50000⟩ : Vec3) = ⟨0, 0, 4/50000⟩ := by
    ext <;> norm_num
  rw [hdiff, length_00a]
  norm_num

/-- The sphere test on the identity radius-`0.5` sphere for the ray from
`(0,0,-2)` toward `(0,0,1)`: both roots positive, smaller root `1.5` taken,
`outside = true`. -/
theorem sphereEval_rayA (ip0 n0 : Vec3) (out0 : Bool) :
    sphereIntersectionTest gId ⟨⟨0, 0, -2⟩, ⟨0, 0, 1⟩⟩ ip0 n0 out0 =
      ⟨14999/10000, ⟨0, 0, -(5001/10000)⟩, ⟨0, 0, -1⟩, true⟩ := by
  have hq : objRay gId ⟨⟨0, 0, -2⟩, ⟨0, 0, 1⟩⟩ = ⟨⟨0, 0, -2⟩, ⟨0, 0, 1⟩⟩ := by
    rw [objRay_gId, normalize_unitZ]
  have hs : Real.sqrt (1/4 : ℝ) = 1/2 := by
    rw [show (1/4 : ℝ) = (1/2) ^ 2 by norm_num, Real.sqrt_sq (by norm_num)]
  have hnrm : Vec3.normalize ⟨0, 0, -(5001/10000)⟩ = ⟨0, 0, -1⟩ := by
    rw [normalize_00, abs_of_neg (by norm_num)]
    norm_num
  have hp : getPointOnRay ⟨⟨0, 0, -2⟩, ⟨0, 0, 1⟩⟩ (3/2) = ⟨0, 0, -(5001/10000)⟩ := by
    rw [getPointOnRay, normalize_unitZ]
    ext <;> norm_num
  have hdiff : (⟨0, 0, -2⟩ - ⟨0, 0, -(5001/10000)⟩ : Vec3) = ⟨0, 0, -(14999/10000)⟩ := by
    ext <;> norm_num
  simp only [sphereIntersectionTest, hq]
  norm_num [Vec3.dot, hs, min_def, max_def, gId]
  rw [hp, hdiff, hnrm, length_00a]
  norm_num

/-- The sphere test misses for the ray from `(0,0,-2)` toward `(0,0,-1)`:
both roots negative; the output channels are left unchanged. -/
theorem sphereEval_missRay (ip0 n0 : Vec3) (out0 : Bool) :
    sphereIntersectionTest gId ⟨⟨0, 0, -2⟩, ⟨0, 0, -1⟩⟩ ip0 n0 out0 = ⟨-1, ip0, n0, out0⟩ := by
  have hq : objRay gId ⟨⟨0, 0, -2⟩, ⟨0, 0, -1⟩⟩ = ⟨⟨0, 0, -2⟩, ⟨0, 0, -1⟩⟩ := by
    rw [objRay_gId, normalize_negUnitZ]
  have hs : Real.sqrt (1/4 : ℝ) = 1/2 := by
    rw [show (1/4 : ℝ) = (1/2) ^ 2 by norm_num, Real.sqrt_sq (by norm_num)]
  simp only [sphereIntersectionTest, hq]
  norm_num [Vec3.dot, hs]

/-- The sphere test for a near-tangent ray whose origin lies just inside the
surface: `x² + y² = 1/4` with `x = (10^10-1)/(2(10^10+1))` and
`y = 10^5/(10^10+1) < 0.0001`.  The discriminant is the perfect square `y²`,
the inside branch is taken with `t = y`, and the `0.0001` pullback places the
reported point at `z = y - 0.0001 < 0`, behind the ray origin, so the negated
normal has a positive `z` component. -/
theorem sphereEval_grazeRay (ip0 n0 : Vec3) (out0 : Bool) :
    sphereIntersectionTest gId ⟨⟨9999999999/20000000002, 0, 0⟩, ⟨0, 0, 1⟩⟩ ip0 n0 out0 =
      ⟨9000000001/100000000010000,
       ⟨9999999999/20000000002, 0, -(9000000001/100000000010000)⟩,
       -(Vec3.normalize ⟨9999999999/20000000002, 0, -(9000000001/100000000010000)⟩),
       false⟩ := by
  have hq : objRay gId ⟨⟨9999999999/20000000002, 0, 0⟩, ⟨0, 0, 1⟩⟩ =
      ⟨⟨9999999999/20000000002, 0, 0⟩, ⟨0, 0, 1⟩⟩ := by
    rw [objRay_gId, normalize_unitZ]
  have hd1 : Vec3.dot ⟨9999999999/20000000002, 0, 0⟩ ⟨0, 0, 1⟩ = 0 := by
    norm_num [Vec3.dot]
  have hrad : (0:ℝ) * 0 -
      (Vec3.dot ⟨9999999999/20000000002, 0, 0⟩ ⟨9999999999/20000000002, 0, 0⟩ - (1/2)^2) =
      (100000/10000000001 : ℝ)^2 := by
    norm_num [Vec3.dot]
  have hp : getPointOnRay ⟨⟨9999999999/20000000002, 0, 0⟩, ⟨0, 0, 1⟩⟩
      (100000/10000000001) =
      ⟨9999999999/20000000002, 0, -(9000000001/100000000010000)⟩ := by
    rw [getPointOnRay, normalize_unitZ]
    ext <;> norm_num
  have hdiff : (⟨9999999999/20000000002, 0, 0⟩ -
      ⟨9999999999/20000000002, 0, -(9000000001/100000000010000)⟩ : Vec3) =
      ⟨0, 0, 9000000001/100000000010000⟩ := by
    ext <;> norm_num
  simp only [sphereIntersectionTest, hq, hd1]
  rw [hrad, Real.sqrt_sq (by norm_num : (0:ℝ) ≤ 100000/10000000001)]
  norm_num [min_def, max_def, gId]
  rw [hp, hdiff, length_00a]
  norm_num

/-- The Möller–Trumbore test reports a hit with barycentric output `(0, 0, 1)`
(one-hot at the first vertex) for the ray from `(0,0,-1)` toward `(0,0,1)`
against the triangle `(0,0,0), (0,1,0), (1,0,0)`. -/
theorem intersectEval_hit :
    intersectRayTriangle ⟨0, 0, -1⟩ ⟨0, 0, 1⟩ ⟨0, 0, 0⟩ ⟨0, 1, 0⟩ ⟨1, 0, 0⟩ =
      some ⟨0, 0, 1⟩ := by
  rw [intersectRayTriangle]
  norm_num [Vec3.cross, Vec3.dot, glmEpsilon]

/-- The Möller–Trumbore test reports a miss (backfacing determinant) for the
ray from `(0,0,-1)` toward `(0,0,-1)` against the same triangle. -/
theorem intersectEval_miss :
    intersectRayTriangle ⟨0, 0, -1⟩ ⟨0, 0, -1⟩ ⟨0, 0, 0⟩ ⟨0, 1, 0⟩ ⟨1, 0, 0⟩ = none := by
  rw [intersectRayTriangle]
  norm_num [Vec3.cross, Vec3.dot, glmEpsilon]

/-- The smoothed normal of the concrete triangle at its first vertex:
the one-hot barycentric weights select the first supplied normal. -/
theorem triSmoothEval :
    triSmoothNormal ⟨0, 0, 0⟩ ⟨0, 1, 0⟩ ⟨1, 0, 0⟩ ⟨0, 0, -2⟩ ⟨0, 0, -1⟩ ⟨0, 0, -3⟩ ⟨0, 0, 0⟩ =
      ⟨0, 0, -1⟩ := by
  rw [triSmoothNormal, triCornerNormals,
    if_pos (by norm_num [triHasNormal, length_00a] : triHasNormal ⟨0, 0, -2⟩ ⟨0, 0, -1⟩ ⟨0, 0, -3⟩)]
  norm_num [Vec3.cross, length_00a]
  have hsum : ((1 : ℝ) • ⟨0, 0, -2⟩ + (0 : ℝ) • ⟨0, 0, -1⟩ + (0 : ℝ) • ⟨0, 0, -3⟩ : Vec3) =
      ⟨0, 0, -2⟩ := by
    ext <;> norm_num
  rw [hsum, normalize_00]
  norm_num

/-- The triangle test on the identity transform for the ray from `(0,0,-1)`
toward `(0,0,1)` hitting the triangle `(0,0,0), (0,1,0), (1,0,0)` at its first
vertex, with supplied normals: distance `1`, normal `(0,0,-1)`, no flip. -/
theorem triEval_hit (ip0 n0 : Vec3) (out0 : Bool) :
    triangleInteractionTest gId ⟨⟨0, 0, -1⟩, ⟨0, 0, 1⟩⟩ ip0
      ⟨0, 0, 0⟩ ⟨0, 1, 0⟩ ⟨1, 0, 0⟩ ⟨0, 0, -2⟩ ⟨0, 0, -1⟩ ⟨0, 0, -3⟩ n0 out0 =
      ⟨1, ⟨0, 0, 0⟩, ⟨0, 0, -1⟩, out0⟩ := by
  have hq : objRay gId ⟨⟨0, 0, -1⟩, ⟨0, 0, 1⟩⟩ = ⟨⟨0, 0, -1⟩, ⟨0, 0, 1⟩⟩ := by
    rw [objRay_gId, normalize_unitZ]
  have hbp : ((1 - 0 - 0 : ℝ) • (⟨0, 0, 0⟩ : Vec3) + (0 : ℝ) • ⟨0, 1, 0⟩ +
      (0 : ℝ) • ⟨1, 0, 0⟩) = (⟨0, 0, 0⟩ : Vec3) := by
    ext <;> norm_num
  simp only [triangleInteractionTest, hq, intersectEval_hit]
  rw [hbp, triSmoothEval]
  have hmp : multiplyMV gId.transform (toPoint ⟨0, 0, 0⟩) = ⟨0, 0, 0⟩ := by
    show multiplyMV Mat4.id4 _ = _
    rw [multiplyMV_id4_point]
  have hmn : multiplyMV gId.invTranspose (toDir ⟨0, 0, -1⟩) = ⟨0, 0, -1⟩ := by
    show multiplyMV Mat4.id4 _ = _
    rw [multiplyMV_id4_dir]
  rw [hmp, hmn, normalize_negUnitZ]
  rw [if_neg (by norm_num [Vec3.dot])]
  have hdiff : (⟨0, 0, -1⟩ - ⟨0, 0, 0⟩ : Vec3) = ⟨0, 0, -1⟩ := by
    ext <;> norm_num
  rw [hdiff, length_00a]
  norm_num

/-- The triangle test misses (backfacing ray) and leaves all output channels
unchanged. -/
theorem triEval_miss (ip0 n0 : Vec3) (out0 : Bool) :
    triangleInteractionTest gId ⟨⟨0, 0, -1⟩, ⟨0, 0, -1⟩⟩ ip0
      ⟨0, 0, 0⟩ ⟨0, 1, 0⟩ ⟨1, 0, 0⟩ ⟨0, 0, -2⟩ ⟨0, 0, -1⟩ ⟨0, 0, -3⟩ n0 out0 =
      ⟨-1, ip0, n0, out0⟩ := by
  have hq : objRay gId ⟨⟨0, 0, -1⟩, ⟨0, 0, -1⟩⟩ = ⟨⟨0, 0, -1⟩, ⟨0, 0, -1⟩⟩ := by
    rw [objRay_gId, normalize_negUnitZ]
  simp only [triangleInteractionTest, hq, intersectEval_miss]

theorem objRay_gId_rayA : objRay gId ⟨⟨0, 0, -2⟩, ⟨0, 0, 1⟩⟩ =
    ⟨⟨0, 0, -2⟩, ⟨0, 0, 1⟩⟩ := by
  rw [objRay_gId, normalize_unitZ]

theorem boxEffT_rayA : boxEffT gId ⟨⟨0, 0, -2⟩, ⟨0, 0, 1⟩⟩ = 3/2 := by
  simp only [boxEffT, objRay_gId_rayA, slabFold_rayA]
  rw [if_neg (by norm_num [EReal.coe_nonpos]), EReal.toReal_coe]

theorem boxEffT_rayB : boxEffT gId ⟨⟨0, 0, 24999/50000⟩, ⟨0, 0, 1⟩⟩ = 1/50000 := by
  simp only [boxEffT, objRay_gId_rayB, slabFold_rayB]
  rw [if_pos (by norm_num [← EReal.coe_neg, EReal.coe_nonpos]), EReal.toReal_coe]

theorem sphereEffT_rayA : sphereEffT gId ⟨⟨0, 0, -2⟩, ⟨0, 0, 1⟩⟩ = 3/2 := by
  have hs : Real.sqrt (1/4 : ℝ) = 1/2 := by
    rw [show (1/4 : ℝ) = (1/2) ^ 2 by norm_num, Real.sqrt_sq (by norm_num)]
  simp only [sphereEffT, objRay_gId_rayA]
  norm_num [Vec3.dot, hs, min_def]

/-- On a box hit, the reported point is the forward transform of the
pulled-back `getPointOnRay` evaluation at the effective slab parameter, and
the returned distance is measured to that point. -/
theorem box_hit_point_dist (g : Geom) (r : Ray) (ip0 n0 : Vec3) (out0 : Bool)
    (hhit : (boxIntersectionTest g r ip0 n0 out0).dist ≠ -1) :
    (boxIntersectionTest g r ip0 n0 out0).point =
      multiplyMV g.transform (toPoint (getPointOnRay (objRay g r) (boxEffT g r))) ∧
    (boxIntersectionTest g r ip0 n0 out0).dist =
      Vec3.length (r.origin -
        multiplyMV g.transform (toPoint (getPointOnRay (objRay g r) (boxEffT g r)))) := by
  simp only [boxIntersectionTest, boxEffT] at hhit ⊢
  by_cases h : (slabFold (objRay g r)).tmax ≥ (slabFold (objRay g r)).tmin ∧
      (slabFold (objRay g r)).tmax > 0
  · rw [if_pos h]
    exact ⟨rfl, rfl⟩
  · rw [if_neg h] at hhit
    exact absurd rfl hhit

/-- On a sphere hit, the reported point is the forward transform of the
pulled-back `getPointOnRay` evaluation at the chosen root, and the returned
distance is measured to that point. -/
theorem sphere_hit_point_dist (g : Geom) (r : Ray) (ip0 n0 : Vec3) (out0 : Bool)
    (hhit : (sphereIntersectionTest g r ip0 n0 out0).dist ≠ -1) :
    (sphereIntersectionTest g r ip0 n0 out0).point =
      multiplyMV g.transform (toPoint (getPointOnRay (objRay g r) (sphereEffT g r))) ∧
    (sphereIntersectionTest g r ip0 n0 out0).dist =
      Vec3.length (r.origin -
        multiplyMV g.transform (toPoint (getPointOnRay (objRay g r) (sphereEffT g r)))) := by
  simp only [sphereIntersectionTest, sphereEffT] at hhit ⊢
  set b := Vec3.dot (objRay g r).origin (objRay g r).direction with hb
  set rad := b * b - (Vec3.dot (objRay g r).origin (objRay g r).origin - (1/2)^2) with hrad
  by_cases h1 : rad < 0
  · rw [if_pos h1] at hhit
    exact absurd rfl hhit
  · rw [if_neg h1] at hhit ⊢
    by_cases h2 : -b + Real.sqrt rad < 0 ∧ -b - Real.sqrt rad < 0
    · rw [if_pos h2] at hhit
      exact absurd rfl hhit
    · rw [if_neg h2] at hhit ⊢
      exact ⟨rfl, rfl⟩

/-- On a triangle hit, the reported point is exactly the forward transform of
the barycentric combination of the three vertices: no pullback is applied. -/
theorem tri_hit_point (g : Geom) (r : Ray) (ip0 v1 v2 v3 n1 n2 n3 n0 : Vec3)
    (out0 : Bool) (b : Vec3)
    (hsome : intersectRayTriangle (objRay g r).origin (objRay g r).direction v1 v2 v3 =
      some b) :
    (triangleInteractionTest g r ip0 v1 v2 v3 n1 n2 n3 n0 out0).point =
      multiplyMV g.transform (toPoint ((1 - b.x - b.y) • v1 + b.x • v2 + b.y • v3)) := by
  simp only [triangleInteractionTest, hsome]
  split_ifs <;> rfl

/-- Measuring from the world origin, the pulled-back evaluation point at
parameter `t` is strictly closer than the exact parametric point whenever the
transforms are consistent on this ray and `t` exceeds half the pullback. -/
theorem pullback_dist_lt (g : Geom) (r : Ray) (t : ℝ)
    (hrt : multiplyMV g.transform
      (toPoint (multiplyMV g.inverseTransform (toPoint r.origin))) = r.origin)
    (hL : multiplyMV g.transform (toDir ((objRay g r).direction)) ≠ 0)
    (ht : 0.0001 < 2 * t) :
    Vec3.length (r.origin -
      multiplyMV g.transform (toPoint (getPointOnRay (objRay g r) t))) <
    Vec3.length (r.origin -
      multiplyMV g.transform (toPoint (rawPointOnRay (objRay g r) t))) := by
  have hsub : ∀ (a w : Vec3), a - (a + w) = -w := by
    intro a w
    ext <;> simp
  have key : ∀ s : ℝ,
      Vec3.length (r.origin - multiplyMV g.transform
        (toPoint ((objRay g r).origin + s • Vec3.normalize (objRay g r).direction))) =
      |s| * Vec3.length (multiplyMV g.transform (toDir ((objRay g r).direction))) := by
    intro s
    rw [show Vec3.normalize (objRay g r).direction = (objRay g r).direction from
        Vec3.normalize_normalize _,
      multiplyMV_point_add_smul,
      show multiplyMV g.transform (toPoint (objRay g r).origin) = r.origin from hrt,
      hsub, Vec3.length_neg, Vec3.length_smul]
  rw [getPointOnRay, rawPointOnRay, key, key]
  have ht0 : 0 < t := by nlinarith
  apply mul_lt_mul_of_pos_right _ (Vec3.length_pos _ hL)
  rw [abs_of_pos ht0, abs_lt]
  constructor <;> nlinarith

/-! ### Claims -/

/-- C2: `boxIntersectionTest` reports a hit exactly when, after the three-axis
slab pass over the canonical box `[-0.5, 0.5]^3` in object space,
`tmax ≥ tmin` and `tmax > 0`; on a hit, if `tmin ≤ 0` it reports
`outside = false` and uses the exit parameter `tmax` and exit normal `tmax_n`
as the effective hit, otherwise it reports `outside = true` and uses the entry
parameter `tmin` and entry normal `tmin_n`. -/
theorem claim_C2_box_slab_decision (g : Geom) (r : Ray) (ip0 n0 : Vec3) (out0 : Bool) :
    let q := objRay g r
    let st := slabFold q
    let res := boxIntersectionTest g r ip0 n0 out0
    (res.dist ≠ -1 ↔ (st.tmax ≥ st.tmin ∧ st.tmax > 0)) ∧
    res = (if st.tmax ≥ st.tmin ∧ st.tmax > 0 then
        if st.tmin ≤ 0 then
          (⟨Vec3.length (r.origin -
              multiplyMV g.transform (toPoint (getPointOnRay q st.tmax.toReal))),
            multiplyMV g.transform (toPoint (getPointOnRay q st.tmax.toReal)),
            Vec3.normalize (multiplyMV g.invTranspose (toDir st.tmax_n)), false⟩ : HitResult)
        else
          ⟨Vec3.length (r.origin -
              multiplyMV g.transform (toPoint (getPointOnRay q st.tmin.toReal))),
            multiplyMV g.transform (toPoint (getPointOnRay q st.tmin.toReal)),
            Vec3.normalize (multiplyMV g.invTranspose (toDir st.tmin_n)), true⟩
      else ⟨-1, ip0, n0, out0⟩) := by
  simp only [boxIntersectionTest]
  by_cases h : (slabFold (objRay g r)).tmax ≥ (slabFold (objRay g r)).tmin ∧
      (slabFold (objRay g r)).tmax > 0
  · rw [if_pos h, if_pos h]
    by_cases h2 : (slabFold (objRay g r)).tmin ≤ 0
    · rw [if_pos h2, if_pos h2, if_pos h2, if_pos h2]
      exact ⟨⟨fun _ => h, fun _ =>
        ne_of_gt (lt_of_lt_of_le (by norm_num) (Vec3.length_nonneg _))⟩, rfl⟩
    · rw [if_neg h2, if_neg h2, if_neg h2, if_neg h2]
      exact ⟨⟨fun _ => h, fun _ =>
        ne_of_gt (lt_of_lt_of_le (by norm_num) (Vec3.length_nonneg _))⟩, rfl⟩
  · rw [if_neg h, if_neg h]
    exact ⟨⟨fun hd => absurd rfl hd, fun hc => absurd hc h⟩, rfl⟩

/-- C3: `sphereIntersectionTest` against the canonical radius-`0.5`
object-space sphere returns `-1` when the discriminant `b² - c` is negative or
when both roots `t1 = -b + sqrt(disc)` and `t2 = -b - sqrt(disc)` are
negative; when both roots are positive it takes the smaller root and sets
`outside = true`; otherwise it takes the larger root, sets `outside = false`,
and negates the world-space normal so it points toward the ray origin's
side. -/
theorem claim_C3_sphere_branches (g : Geom) (r : Ray) (ip0 n0 : Vec3) (out0 : Bool) :
    let rt := objRay g r
    let b := Vec3.dot rt.origin rt.direction
    let c := Vec3.dot rt.origin rt.origin - (1/2)^2
    let t1 := -b + Real.sqrt (b^2 - c)
    let t2 := -b - Real.sqrt (b^2 - c)
    sphereIntersectionTest g r ip0 n0 out0 =
      (if b^2 - c < 0 then ⟨-1, ip0, n0, out0⟩
      else if t1 < 0 ∧ t2 < 0 then ⟨-1, ip0, n0, out0⟩
      else if t1 > 0 ∧ t2 > 0 then
        ⟨Vec3.length (r.origin -
            multiplyMV g.transform (toPoint (getPointOnRay rt (min t1 t2)))),
          multiplyMV g.transform (toPoint (getPointOnRay rt (min t1 t2))),
          Vec3.normalize (multiplyMV g.invTranspose
            (toDir (getPointOnRay rt (min t1 t2)))), true⟩
      else
        ⟨Vec3.length (r.origin -
            multiplyMV g.transform (toPoint (getPointOnRay rt (max t1 t2)))),
          multiplyMV g.transform (toPoint (getPointOnRay rt (max t1 t2))),
          -(Vec3.normalize (multiplyMV g.invTranspose
            (toDir (getPointOnRay rt (max t1 t2))))), false⟩) := by
  simp only [sphereIntersectionTest]
  set b := Vec3.dot (objRay g r).origin (objRay g r).direction with hb
  set c := Vec3.dot (objRay g r).origin (objRay g r).origin - (1/2)^2 with hc
  simp only [show b ^ 2 - c = b * b - c from by ring]
  split_ifs <;> simp_all

/-- C5: on every hit, each of the three intersection tests returns the
Euclidean distance between the original world-space ray origin and the
world-space hit point it wrote to the `intersectionPoint` output (not the raw
object-space ray parameter `t`). -/
theorem claim_C5_returned_distance_euclidean :
    (∀ (g : Geom) (r : Ray) (ip0 n0 : Vec3) (out0 : Bool),
      (boxIntersectionTest g r ip0 n0 out0).dist = -1 ∨
      (boxIntersectionTest g r ip0 n0 out0).dist =
        Vec3.length (r.origin - (boxIntersectionTest g r ip0 n0 out0).point)) ∧
    (∀ (g : Geom) (r : Ray) (ip0 n0 : Vec3) (out0 : Bool),
      (sphereIntersectionTest g r ip0 n0 out0).dist = -1 ∨
      (sphereIntersectionTest g r ip0 n0 out0).dist =
        Vec3.length (r.origin - (sphereIntersectionTest g r ip0 n0 out0).point)) ∧
    (∀ (g : Geom) (r : Ray) (ip0 v1 v2 v3 n1 n2 n3 n0 : Vec3) (out0 : Bool),
      (triangleInteractionTest g r ip0 v1 v2 v3 n1 n2 n3 n0 out0).dist = -1 ∨
      (triangleInteractionTest g r ip0 v1 v2 v3 n1 n2 n3 n0 out0).dist =
        Vec3.length (r.origin -
          (triangleInteractionTest g r ip0 v1 v2 v3 n1 n2 n3 n0 out0).point)) := by
  refine ⟨fun g r ip0 n0 out0 => ?_, fun g r ip0 n0 out0 => ?_,
    fun g r ip0 v1 v2 v3 n1 n2 n3 n0 out0 => ?_⟩
  · simp only [boxIntersectionTest]
    split_ifs <;> simp
  · simp only [sphereIntersectionTest]
    split_ifs <;> simp
  · simp only [triangleInteractionTest]
    rcases h : intersectRayTriangle (objRay g r).origin (objRay g r).direction v1 v2 v3 with
      _ | b
    · simp
    · simp only []
      split_ifs <;> simp

/-- C6: for every input on which an intersection test misses, it returns
exactly `-1` and leaves all of its output channels (`intersectionPoint`,
`normal`, `outside`) unchanged from the values the caller passed in; the only
other outcome is a hit with a non-negative distance. -/
theorem claim_C6_miss_preserves_outputs :
    (∀ (g : Geom) (r : Ray) (ip0 n0 : Vec3) (out0 : Bool),
      boxIntersectionTest g r ip0 n0 out0 = ⟨-1, ip0, n0, out0⟩ ∨
      0 ≤ (boxIntersectionTest g r ip0 n0 out0).dist) ∧
    (∀ (g : Geom) (r : Ray) (ip0 n0 : Vec3) (out0 : Bool),
      sphereIntersectionTest g r ip0 n0 out0 = ⟨-1, ip0, n0, out0⟩ ∨
      0 ≤ (sphereIntersectionTest g r ip0 n0 out0).dist) ∧
    (∀ (g : Geom) (r : Ray) (ip0 v1 v2 v3 n1 n2 n3 n0 : Vec3) (out0 : Bool),
      triangleInteractionTest g r ip0 v1 v2 v3 n1 n2 n3 n0 out0 = ⟨-1, ip0, n0, out0⟩ ∨
      0 ≤ (triangleInteractionTest g r ip0 v1 v2 v3 n1 n2 n3 n0 out0).dist) := by
  refine ⟨fun g r ip0 n0 out0 => ?_, fun g r ip0 n0 out0 => ?_,
    fun g r ip0 v1 v2 v3 n1 n2 n3 n0 out0 => ?_⟩
  · simp only [boxIntersectionTest]
    split_ifs <;> simp [Vec3.length_nonneg]
  · simp only [sphereIntersectionTest]
    split_ifs <;> simp [Vec3.length_nonneg]
  · simp only [triangleInteractionTest]
    rcases h : intersectRayTriangle (objRay g r).origin (objRay g r).direction v1 v2 v3 with
      _ | b
    · simp
    · simp only []
      split_ifs <;> simp [Vec3.length_nonneg]

/-- C7: in `triangleInteractionTest`, the supplied vertex normals are used if
and only if all three have non-zero length; when any supplied normal has zero
length, three per-corner flat normals are synthesized from the triangle's edge
cross products, and those three corner normals are numerically equal up to
sign. -/
theorem claim_C7_corner_normal_selection (v1 v2 v3 n1 n2 n3 : Vec3) :
    triCornerNormals v1 v2 v3 n1 n2 n3 =
      (if triHasNormal n1 n2 n3 then (n1, n2, n3)
       else (triFlat1 v1 v2 v3, triFlat2 v1 v2 v3, triFlat3 v1 v2 v3)) ∧
    triFlat1 v1 v2 v3 = -(triFlat2 v1 v2 v3) ∧
    triFlat1 v1 v2 v3 = triFlat3 v1 v2 v3 := by
  refine ⟨rfl, ?_, ?_⟩
  · rw [triFlat1, triFlat2,
      show Vec3.cross (v1 - v2) (v3 - v2) = -(Vec3.cross (v2 - v1) (v3 - v1)) from by
        ext <;> simp [Vec3.cross] <;> ring,
      Vec3.normalize_neg, Vec3.neg_neg']
  · rw [triFlat1, triFlat3,
      show Vec3.cross (v1 - v3) (v2 - v3) = Vec3.cross (v2 - v1) (v3 - v1) from by
        ext <;> simp [Vec3.cross] <;> ring]

/-- For consistent transforms, a box hit always reports a normal with
non-positive dot product against the incoming world direction. -/
theorem box_hit_normal_backfacing (g : Geom) (r : Ray) (ip0 n0 : Vec3) (out0 : Bool)
    (hT : g.invTranspose = Mat4.transpose g.inverseTransform)
    (hhit : (boxIntersectionTest g r ip0 n0 out0).dist ≠ -1) :
    Vec3.dot (boxIntersectionTest g r ip0 n0 out0).normal r.direction ≤ 0 := by
  simp only [boxIntersectionTest] at hhit ⊢
  by_cases h : (slabFold (objRay g r)).tmax ≥ (slabFold (objRay g r)).tmin ∧
      (slabFold (objRay g r)).tmax > 0
  · rw [if_pos h]
    dsimp only
    have hnu : Vec3.dot (if (slabFold (objRay g r)).tmin ≤ 0 then
        (slabFold (objRay g r)).tmax_n else (slabFold (objRay g r)).tmin_n)
        (objRay g r).direction ≤ 0 := by
      rcases slabFold_normals_nonpos (objRay g r) with ⟨ha, hb⟩
      split_ifs <;> assumption
    rw [hT]
    apply Vec3.dot_normalize_left_nonpos
    rw [dot_multiplyMV_transpose]
    have hBd : multiplyMV g.inverseTransform (toDir r.direction) =
        Vec3.length (multiplyMV g.inverseTransform (toDir r.direction)) •
          (objRay g r).direction :=
      Vec3.eq_length_smul_normalize _
    rw [hBd, Vec3.dot_smul_right]
    exact mul_nonpos_of_nonneg_of_nonpos (Vec3.length_nonneg _) hnu
  · rw [if_neg h] at hhit
    exact absurd rfl hhit

/-- A triangle hit always reports a normal with non-positive dot product
against the incoming world direction: the final flip enforces it. -/
theorem triangle_hit_normal_backfacing (g : Geom) (r : Ray)
    (ip0 v1 v2 v3 n1 n2 n3 n0 : Vec3) (out0 : Bool)
    (hhit : (triangleInteractionTest g r ip0 v1 v2 v3 n1 n2 n3 n0 out0).dist ≠ -1) :
    Vec3.dot (triangleInteractionTest g r ip0 v1 v2 v3 n1 n2 n3 n0 out0).normal
      r.direction ≤ 0 := by
  simp only [triangleInteractionTest] at hhit ⊢
  rcases hi : intersectRayTriangle (objRay g r).origin (objRay g r).direction v1 v2 v3 with
    _ | b
  · rw [hi] at hhit
    exact absurd rfl hhit
  · dsimp only at hhit ⊢
    split_ifs with hflip
    · dsimp only
      rw [Vec3.dot_neg_left]
      linarith
    · dsimp only
      exact le_of_not_lt hflip

/-- For consistent transforms, a sphere hit reports a normal with non-positive
dot product against the incoming world direction whenever the hit is an
outside hit, or an inside hit whose discriminant square root is at least the
`0.0001` ray pullback. -/
theorem sphere_hit_normal_backfacing (g : Geom) (r : Ray) (ip0 n0 : Vec3) (out0 : Bool)
    (hT : g.invTranspose = Mat4.transpose g.inverseTransform)
    (hhit : (sphereIntersectionTest g r ip0 n0 out0).dist ≠ -1)
    (hcond : (sphereIntersectionTest g r ip0 n0 out0).outside = true ∨
      (0.0001 : ℝ) ≤ Real.sqrt (sphereRadicand g r)) :
    Vec3.dot (sphereIntersectionTest g r ip0 n0 out0).normal r.direction ≤ 0 := by
  have hradeq : sphereRadicand g r =
      Vec3.dot (objRay g r).origin (objRay g r).direction *
        Vec3.dot (objRay g r).origin (objRay g r).direction -
      (Vec3.dot (objRay g r).origin (objRay g r).origin - (1/2)^2) := rfl
  simp only [sphereIntersectionTest] at hhit hcond ⊢
  rw [hradeq] at hcond
  set q := objRay g r with hq
  set b := Vec3.dot q.origin q.direction with hb
  set rad := b * b - (Vec3.dot q.origin q.origin - (1/2)^2) with hrad
  by_cases h1 : rad < 0
  · rw [if_pos h1] at hhit
    exact absurd rfl hhit
  · rw [if_neg h1] at hhit hcond ⊢
    by_cases h2 : -b + Real.sqrt rad < 0 ∧ -b - Real.sqrt rad < 0
    · rw [if_pos h2] at hhit
      exact absurd rfl hhit
    · rw [if_neg h2] at hhit hcond ⊢
      have hsq := Real.sqrt_nonneg rad
      have hdir : q.direction =
          Vec3.normalize (multiplyMV g.inverseTransform (toDir r.direction)) := by
        rw [hq]
        rfl
      by_cases hBd : multiplyMV g.inverseTransform (toDir r.direction) = 0
      · have hzero : ∀ p : Vec3,
            Vec3.dot p (multiplyMV g.inverseTransform (toDir r.direction)) = 0 := fun p => by
          rw [hBd, Vec3.dot_zero_right]
        by_cases h3 : -b + Real.sqrt rad > 0 ∧ -b - Real.sqrt rad > 0
        · simp only [if_pos h3]
          rw [hT]
          apply Vec3.dot_normalize_left_nonpos
          rw [dot_multiplyMV_transpose, hzero]
        · simp only [if_neg h3]
          rw [Vec3.dot_neg_left, hT, Vec3.dot_normalize_left,
            dot_multiplyMV_transpose, hzero]
          simp
      · have hdd : Vec3.dot q.direction q.direction = 1 := by
          rw [hdir]
          exact Vec3.dot_normalize_self _ hBd
        have hBdlen : multiplyMV g.inverseTransform (toDir r.direction) =
            Vec3.length (multiplyMV g.inverseTransform (toDir r.direction)) • q.direction := by
          rw [hdir]
          exact Vec3.eq_length_smul_normalize _
        have hpdot : ∀ t : ℝ,
            Vec3.dot (getPointOnRay q t) q.direction = b + (t - 0.0001) := fun t => by
          rw [getPointOnRay, hdir, Vec3.normalize_normalize, ← hdir, Vec3.dot_add_left,
            Vec3.dot_smul_left, hdd, mul_one, ← hb]
        by_cases h3 : -b + Real.sqrt rad > 0 ∧ -b - Real.sqrt rad > 0
        · simp only [if_pos h3]
          rw [hT]
          apply Vec3.dot_normalize_left_nonpos
          rw [dot_multiplyMV_transpose, hBdlen, Vec3.dot_smul_right]
          apply mul_nonpos_of_nonneg_of_nonpos (Vec3.length_nonneg _)
          rw [hpdot, min_eq_right (by linarith : -b - Real.sqrt rad ≤ -b + Real.sqrt rad)]
          have heps : (0 : ℝ) < 0.0001 := by norm_num
          linarith
        · simp only [if_neg h3] at hcond ⊢
          rcases hcond with hc | hc
          · exact absurd hc Bool.false_ne_true
          · rw [Vec3.dot_neg_left, neg_nonpos, hT,
              Vec3.dot_normalize_left, dot_multiplyMV_transpose, hBdlen, Vec3.dot_smul_right]
            apply div_nonneg _ (Vec3.length_nonneg _)
            apply mul_nonneg (Vec3.length_nonneg _)
            rw [hpdot, max_eq_left (by linarith : -b - Real.sqrt rad ≤ -b + Real.sqrt rad)]
            linarith

/-- C9: for a ray whose object-space direction has a zero component on some
axis, the slab divisions on that axis yield the infinities `⊥` and `⊤`
whenever the origin lies strictly inside that axis's slab, and the loop body's
comparisons then leave the slab state unchanged — the axis contributes no
constraint, so the overall hit/miss decision and chosen parameter are
unaffected by the unguarded division. -/
theorem claim_C9_parallel_axis_no_constraint (q : Ray) (i : Fin 3) (st : SlabState)
    (hd : q.direction.nth i = 0)
    (h1 : -(1/2 : ℝ) < q.origin.nth i) (h2 : q.origin.nth i < 1/2) :
    ieeeDiv (-(1/2) - q.origin.nth i) (q.direction.nth i) = ⊥ ∧
    ieeeDiv (1/2 - q.origin.nth i) (q.direction.nth i) = ⊤ ∧
    slabStep q i st = st := by
  refine ⟨?_, ?_, slabStep_parallel_inside q i st hd h1 h2⟩
  · rw [hd, ieeeDiv, if_pos rfl, if_neg (by linarith), if_pos (by linarith)]
  · rw [hd, ieeeDiv, if_pos rfl, if_pos (by linarith)]

/-- Witness for C9 at a concrete parallel ray: axis `0`, direction component
`0`, origin component `0`. -/
theorem claim_C9_witness :
    ieeeDiv (-(1/2) - Vec3.nth ⟨0, 0, 0⟩ 0) (Vec3.nth ⟨0, 0, 0⟩ 0) = ⊥ ∧
    ieeeDiv (1/2 - Vec3.nth ⟨0, 0, 0⟩ 0) (Vec3.nth ⟨0, 0, 0⟩ 0) = ⊤ ∧
    slabStep ⟨⟨0, 0, 0⟩, ⟨0, 0, 0⟩⟩ 0 slabInit = slabInit :=
  claim_C9_parallel_axis_no_constraint ⟨⟨0, 0, 0⟩, ⟨0, 0, 0⟩⟩ 0 slabInit
    (by norm_num [Vec3.nth]) (by norm_num [Vec3.nth]) (by norm_num [Vec3.nth])

/-- C1 (amended): for every hit reported by the box test (under the data-model
invariant `invTranspose = transpose(inverseTransform)`) and by the triangle
test, the returned world normal satisfies `dot(normal, ray.direction) ≤ 0`;
for the sphere test the inequality holds on every outside hit, and on inside
hits whenever the square root of the discriminant is at least the `0.0001`
ray pullback.  (The original unconditional claim fails for the sphere: an
inside grazing hit with `sqrt(discriminant) < 0.0001` reports a normal with a
positive dot product — see the counterexample.) -/
theorem claim_C1_normal_orientation_amended :
    (∀ (g : Geom) (r : Ray) (ip0 n0 : Vec3) (out0 : Bool),
      g.invTranspose = Mat4.transpose g.inverseTransform →
      (boxIntersectionTest g r ip0 n0 out0).dist ≠ -1 →
      Vec3.dot (boxIntersectionTest g r ip0 n0 out0).normal r.direction ≤ 0) ∧
    (∀ (g : Geom) (r : Ray) (ip0 n0 : Vec3) (out0 : Bool),
      g.invTranspose = Mat4.transpose g.inverseTransform →
      (sphereIntersectionTest g r ip0 n0 out0).dist ≠ -1 →
      ((sphereIntersectionTest g r ip0 n0 out0).outside = true ∨
        (0.0001 : ℝ) ≤ Real.sqrt (sphereRadicand g r)) →
      Vec3.dot (sphereIntersectionTest g r ip0 n0 out0).normal r.direction ≤ 0) ∧
    (∀ (g : Geom) (r : Ray) (ip0 v1 v2 v3 n1 n2 n3 n0 : Vec3) (out0 : Bool),
      (triangleInteractionTest g r ip0 v1 v2 v3 n1 n2 n3 n0 out0).dist ≠ -1 →
      Vec3.dot (triangleInteractionTest g r ip0 v1 v2 v3 n1 n2 n3 n0 out0).normal
        r.direction ≤ 0) :=
  ⟨box_hit_normal_backfacing, sphere_hit_normal_backfacing, triangle_hit_normal_backfacing⟩

/-- Witness for the amended C1 at concrete hits of all three testers. -/
theorem claim_C1_witness :
    Vec3.dot (boxIntersectionTest gId ⟨⟨0, 0, -2⟩, ⟨0, 0, 1⟩⟩ 0 0 false).normal
      (⟨0, 0, 1⟩ : Vec3) ≤ 0 ∧
    Vec3.dot (sphereIntersectionTest gId ⟨⟨0, 0, -2⟩, ⟨0, 0, 1⟩⟩ 0 0 false).normal
      (⟨0, 0, 1⟩ : Vec3) ≤ 0 ∧
    Vec3.dot (triangleInteractionTest gId ⟨⟨0, 0, -1⟩, ⟨0, 0, 1⟩⟩ 0
      ⟨0, 0, 0⟩ ⟨0, 1, 0⟩ ⟨1, 0, 0⟩ ⟨0, 0, -2⟩ ⟨0, 0, -1⟩ ⟨0, 0, -3⟩ 0 false).normal
      (⟨0, 0, 1⟩ : Vec3) ≤ 0 :=
  ⟨claim_C1_normal_orientation_amended.1 gId ⟨⟨0, 0, -2⟩, ⟨0, 0, 1⟩⟩ 0 0 false
      (by simp [gId]) (by rw [boxEval_rayA]; norm_num),
   claim_C1_normal_orientation_amended.2.1 gId ⟨⟨0, 0, -2⟩, ⟨0, 0, 1⟩⟩ 0 0 false
      (by simp [gId]) (by rw [sphereEval_rayA]; norm_num)
      (Or.inl (by rw [sphereEval_rayA])),
   claim_C1_normal_orientation_amended.2.2 gId ⟨⟨0, 0, -1⟩, ⟨0, 0, 1⟩⟩ 0
      ⟨0, 0, 0⟩ ⟨0, 1, 0⟩ ⟨1, 0, 0⟩ ⟨0, 0, -2⟩ ⟨0, 0, -1⟩ ⟨0, 0, -3⟩ 0 false
      (by rw [triEval_hit]; norm_num)⟩

/-- C1 counterexample: the sphere test, identity transform, with the
near-tangent inside ray of `sphereEval_grazeRay`, reports a hit (distance
`≠ -1`) whose world normal has a strictly positive dot product with the ray
direction — refuting the unconditional normal-orientation claim. -/
theorem claim_C1_counterexample :
    (sphereIntersectionTest gId
        ⟨⟨9999999999/20000000002, 0, 0⟩, ⟨0, 0, 1⟩⟩ 0 0 false).dist ≠ -1 ∧
    0 < Vec3.dot (sphereIntersectionTest gId
        ⟨⟨9999999999/20000000002, 0, 0⟩, ⟨0, 0, 1⟩⟩ 0 0 false).normal
      (⟨0, 0, 1⟩ : Vec3) := by
  rw [sphereEval_grazeRay]
  constructor
  · norm_num
  · dsimp only
    rw [Vec3.dot_neg_left, Vec3.dot_normalize_left]
    have hdp : Vec3.dot
        ⟨9999999999/20000000002, 0, -(9000000001/100000000010000)⟩ (⟨0, 0, 1⟩ : Vec3) =
        -(9000000001/100000000010000) := by
      norm_num [Vec3.dot]
    rw [hdp]
    have hpne : (⟨9999999999/20000000002, 0, -(9000000001/100000000010000)⟩ : Vec3) ≠ 0 := by
      intro h
      have hx := congrArg Vec3.x h
      norm_num at hx
    have hlp := Vec3.length_pos _ hpne
    rw [neg_div, neg_neg]
    exact div_pos (by norm_num) hlp

/-- C4 counterexample: for the unit box at the identity transform and the ray
from `(0,0,-2)` toward `(0,0,1)`, the returned distance is not `1.5`: the
`0.0001` pullback of `getPointOnRay` makes it `1.4999`. -/
theorem claim_C4_counterexample :
    (boxIntersectionTest gId ⟨⟨0, 0, -2⟩, ⟨0, 0, 1⟩⟩ 0 0 false).dist ≠ 3/2 := by
  rw [boxEval_rayA]
  norm_num

/-- At the first vertex, the area weights degenerate to `(1, 0, 0)` and the
smoothed normal is the first corner normal, normalized. -/
theorem triSmoothNormal_at_vertex1 (v1 v2 v3 n1 n2 n3 : Vec3)
    (hhas : triHasNormal n1 n2 n3) (hS : Vec3.cross (v1 - v2) (v3 - v2) ≠ 0) :
    triSmoothNormal v1 v2 v3 n1 n2 n3 v1 = Vec3.normalize n1 := by
  rw [triSmoothNormal, triCornerNormals, if_pos hhas]
  have hne : (1/2 * Vec3.length (Vec3.cross (v1 - v2) (v3 - v2)) : ℝ) ≠ 0 :=
    mul_ne_zero (by norm_num) (fun h => hS ((Vec3.length_eq_zero_iff _).mp h))
  have h0 : (1/2 : ℝ) * Vec3.length (Vec3.cross (v2 - v1) (v3 - v1)) =
      1/2 * Vec3.length (Vec3.cross (v1 - v2) (v3 - v2)) := by
    rw [Vec3.cross_edge21, Vec3.length_neg]
  rw [Vec3.sub_self' v1]
  simp only [Vec3.cross_zero_left, Vec3.length_zero]
  rw [h0, div_self hne]
  simp only [mul_zero, zero_div, Vec3.zero_smul', Vec3.add_zero', Vec3.one_smul']

/-- At the second vertex, the smoothed normal is the second corner normal,
normalized. -/
theorem triSmoothNormal_at_vertex2 (v1 v2 v3 n1 n2 n3 : Vec3)
    (hhas : triHasNormal n1 n2 n3) (hS : Vec3.cross (v1 - v2) (v3 - v2) ≠ 0) :
    triSmoothNormal v1 v2 v3 n1 n2 n3 v2 = Vec3.normalize n2 := by
  rw [triSmoothNormal, triCornerNormals, if_pos hhas]
  have hne : (1/2 * Vec3.length (Vec3.cross (v1 - v2) (v3 - v2)) : ℝ) ≠ 0 :=
    mul_ne_zero (by norm_num) (fun h => hS ((Vec3.length_eq_zero_iff _).mp h))
  rw [Vec3.sub_self' v2]
  simp only [Vec3.cross_zero_left, Vec3.cross_zero_right, Vec3.length_zero]
  rw [div_self hne]
  simp only [mul_zero, zero_div, Vec3.zero_smul', Vec3.add_zero', Vec3.zero_add',
    Vec3.one_smul']

/-- At the third vertex, the smoothed normal is the third corner normal,
normalized. -/
theorem triSmoothNormal_at_vertex3 (v1 v2 v3 n1 n2 n3 : Vec3)
    (hhas : triHasNormal n1 n2 n3) (hS : Vec3.cross (v1 - v2) (v3 - v2) ≠ 0) :
    triSmoothNormal v1 v2 v3 n1 n2 n3 v3 = Vec3.normalize n3 := by
  rw [triSmoothNormal, triCornerNormals, if_pos hhas]
  have hne : (1/2 * Vec3.length (Vec3.cross (v1 - v2) (v3 - v2)) : ℝ) ≠ 0 :=
    mul_ne_zero (by norm_num) (fun h => hS ((Vec3.length_eq_zero_iff _).mp h))
  have h2 : (1/2 : ℝ) * Vec3.length (Vec3.cross (v1 - v3) (v2 - v3)) =
      1/2 * Vec3.length (Vec3.cross (v1 - v2) (v3 - v2)) := by
    rw [Vec3.cross_edge31, Vec3.cross_edge21, Vec3.length_neg]
  rw [Vec3.sub_self' v3]
  simp only [Vec3.cross_zero_left, Vec3.cross_zero_right, Vec3.length_zero]
  rw [h2, div_self hne]
  simp only [mul_zero, zero_div, Vec3.zero_smul', Vec3.add_zero', Vec3.zero_add',
    Vec3.one_smul']

/-- C8: for a triangle hit whose barycentric coordinates are one-hot at a
vertex (the hit point coincides with that vertex, selected normal `nk`), the
area-weighted smoothed normal computed by `triangleInteractionTest` equals
that vertex's own supplied normal (normalized), and the reported world normal
is its inverse-transpose transform, possibly re-oriented by the final flip. -/
theorem claim_C8_one_hot_smoothed_normal (g : Geom) (r : Ray)
    (ip0 v1 v2 v3 n1 n2 n3 n0 : Vec3) (out0 : Bool) (b nk : Vec3)
    (hsome : intersectRayTriangle (objRay g r).origin (objRay g r).direction v1 v2 v3 =
      some b)
    (hnk : (b.x = 0 ∧ b.y = 0 ∧ nk = n1) ∨ (b.x = 1 ∧ b.y = 0 ∧ nk = n2) ∨
      (b.x = 0 ∧ b.y = 1 ∧ nk = n3))
    (hhas : triHasNormal n1 n2 n3)
    (hS : Vec3.cross (v1 - v2) (v3 - v2) ≠ 0) :
    triSmoothNormal v1 v2 v3 n1 n2 n3 ((1 - b.x - b.y) • v1 + b.x • v2 + b.y • v3) =
      Vec3.normalize nk ∧
    ((triangleInteractionTest g r ip0 v1 v2 v3 n1 n2 n3 n0 out0).normal =
        Vec3.normalize (multiplyMV g.invTranspose (toDir (Vec3.normalize nk))) ∨
      (triangleInteractionTest g r ip0 v1 v2 v3 n1 n2 n3 n0 out0).normal =
        -(Vec3.normalize (multiplyMV g.invTranspose (toDir (Vec3.normalize nk))))) := by
  have hsm : triSmoothNormal v1 v2 v3 n1 n2 n3
      ((1 - b.x - b.y) • v1 + b.x • v2 + b.y • v3) = Vec3.normalize nk := by
    rcases hnk with ⟨hx, hy, hn⟩ | ⟨hx, hy, hn⟩ | ⟨hx, hy, hn⟩ <;> rw [hx, hy, hn]
    · rw [show ((1 - 0 - 0 : ℝ)) • v1 + (0:ℝ) • v2 + (0:ℝ) • v3 = v1 from by ext <;> simp]
      exact triSmoothNormal_at_vertex1 v1 v2 v3 n1 n2 n3 hhas hS
    · rw [show ((1 - 1 - 0 : ℝ)) • v1 + (1:ℝ) • v2 + (0:ℝ) • v3 = v2 from by ext <;> simp]
      exact triSmoothNormal_at_vertex2 v1 v2 v3 n1 n2 n3 hhas hS
    · rw [show ((1 - 0 - 1 : ℝ)) • v1 + (0:ℝ) • v2 + (1:ℝ) • v3 = v3 from by ext <;> simp]
      exact triSmoothNormal_at_vertex3 v1 v2 v3 n1 n2 n3 hhas hS
  refine ⟨hsm, ?_⟩
  simp only [triangleInteractionTest, hsome]
  rw [hsm]
  split_ifs with hf
  · right
    rfl
  · left
    rfl

/-- Witness for C8 at the concrete one-hot hit of `intersectEval_hit`. -/
theorem claim_C8_witness :
    triSmoothNormal ⟨0, 0, 0⟩ ⟨0, 1, 0⟩ ⟨1, 0, 0⟩ ⟨0, 0, -2⟩ ⟨0, 0, -1⟩ ⟨0, 0, -3⟩
        ((1 - 0 - 0 : ℝ) • ⟨0, 0, 0⟩ + (0:ℝ) • ⟨0, 1, 0⟩ + (0:ℝ) • ⟨1, 0, 0⟩) =
      Vec3.normalize ⟨0, 0, -2⟩ ∧
    ((triangleInteractionTest gId ⟨⟨0, 0, -1⟩, ⟨0, 0, 1⟩⟩ 0
        ⟨0, 0, 0⟩ ⟨0, 1, 0⟩ ⟨1, 0, 0⟩ ⟨0, 0, -2⟩ ⟨0, 0, -1⟩ ⟨0, 0, -3⟩ 0 false).normal =
        Vec3.normalize (multiplyMV gId.invTranspose (toDir (Vec3.normalize ⟨0, 0, -2⟩))) ∨
      (triangleInteractionTest gId ⟨⟨0, 0, -1⟩, ⟨0, 0, 1⟩⟩ 0
        ⟨0, 0, 0⟩ ⟨0, 1, 0⟩ ⟨1, 0, 0⟩ ⟨0, 0, -2⟩ ⟨0, 0, -1⟩ ⟨0, 0, -3⟩ 0 false).normal =
        -(Vec3.normalize (multiplyMV gId.invTranspose (toDir (Vec3.normalize ⟨0, 0, -2⟩))))) :=
  claim_C8_one_hot_smoothed_normal gId ⟨⟨0, 0, -1⟩, ⟨0, 0, 1⟩⟩ 0
    ⟨0, 0, 0⟩ ⟨0, 1, 0⟩ ⟨1, 0, 0⟩ ⟨0, 0, -2⟩ ⟨0, 0, -1⟩ ⟨0, 0, -3⟩ 0 false ⟨0, 0, 1⟩ ⟨0, 0, -2⟩
    (by rw [objRay_gId, normalize_unitZ]; exact intersectEval_hit)
    (Or.inl ⟨rfl, rfl, rfl⟩)
    (by norm_num [triHasNormal, length_00a])
    (by
      intro h
      have hz := congrArg Vec3.z h
      norm_num [Vec3.cross] at hz)

/-- C4 (amended): for a unit box with the identity transform, a ray with
origin `(0,0,-2)` and direction `(0,0,1)` produces a hit from
`boxIntersectionTest` with returned distance exactly `1.4999`
(`= 1.5 - 0.0001`, the `getPointOnRay` pullback), world-space normal
`(0,0,-1)`, and `outside = true`. -/
theorem claim_C4_axis_ray_amended (ip0 n0 : Vec3) (out0 : Bool) :
    boxIntersectionTest gId ⟨⟨0, 0, -2⟩, ⟨0, 0, 1⟩⟩ ip0 n0 out0 =
      ⟨14999/10000, ⟨0, 0, -(5001/10000)⟩, ⟨0, 0, -1⟩, true⟩ :=
  boxEval_rayA ip0 n0 out0

/-- C10 (amended): on a hit, `boxIntersectionTest` and `sphereIntersectionTest`
evaluate the reported hit point at object-space parameter `t - 0.0001` via
`getPointOnRay`, and consequently — for transforms consistent on the ray, a
non-degenerate transformed direction, and effective parameter `t > 0.00005` —
the returned distance is strictly less than the exact geometric distance to
the un-pulled-back parametric surface point; `triangleInteractionTest` applies
no such pullback: its reported world-space hit point is exactly the forward
transform of the barycentric combination of the three vertices.  (The original
claim's unconditional "strictly less" fails for effective parameters
`t ≤ 0.00005` — see the counterexample.) -/
theorem claim_C10_pullback_amended :
    (∀ (g : Geom) (r : Ray) (ip0 n0 : Vec3) (out0 : Bool),
      (boxIntersectionTest g r ip0 n0 out0).dist ≠ -1 →
      (boxIntersectionTest g r ip0 n0 out0).point =
        multiplyMV g.transform (toPoint (getPointOnRay (objRay g r) (boxEffT g r)))) ∧
    (∀ (g : Geom) (r : Ray) (ip0 n0 : Vec3) (out0 : Bool),
      (boxIntersectionTest g r ip0 n0 out0).dist ≠ -1 →
      multiplyMV g.transform
        (toPoint (multiplyMV g.inverseTransform (toPoint r.origin))) = r.origin →
      multiplyMV g.transform (toDir ((objRay g r).direction)) ≠ 0 →
      0.0001 < 2 * boxEffT g r →
      (boxIntersectionTest g r ip0 n0 out0).dist <
        Vec3.length (r.origin -
          multiplyMV g.transform (toPoint (rawPointOnRay (objRay g r) (boxEffT g r))))) ∧
    (∀ (g : Geom) (r : Ray) (ip0 n0 : Vec3) (out0 : Bool),
      (sphereIntersectionTest g r ip0 n0 out0).dist ≠ -1 →
      (sphereIntersectionTest g r ip0 n0 out0).point =
        multiplyMV g.transform (toPoint (getPointOnRay (objRay g r) (sphereEffT g r)))) ∧
    (∀ (g : Geom) (r : Ray) (ip0 n0 : Vec3) (out0 : Bool),
      (sphereIntersectionTest g r ip0 n0 out0).dist ≠ -1 →
      multiplyMV g.transform
        (toPoint (multiplyMV g.inverseTransform (toPoint r.origin))) = r.origin →
      multiplyMV g.transform (toDir ((objRay g r).direction)) ≠ 0 →
      0.0001 < 2 * sphereEffT g r →
      (sphereIntersectionTest g r ip0 n0 out0).dist <
        Vec3.length (r.origin -
          multiplyMV g.transform (toPoint (rawPointOnRay (objRay g r) (sphereEffT g r))))) ∧
    (∀ (g : Geom) (r : Ray) (ip0 v1 v2 v3 n1 n2 n3 n0 : Vec3) (out0 : Bool) (b : Vec3),
      intersectRayTriangle (objRay g r).origin (objRay g r).direction v1 v2 v3 = some b →
      (triangleInteractionTest g r ip0 v1 v2 v3 n1 n2 n3 n0 out0).point =
        multiplyMV g.transform (toPoint ((1 - b.x - b.y) • v1 + b.x • v2 + b.y • v3))) := by
  refine ⟨fun g r ip0 n0 out0 hhit => (box_hit_point_dist g r ip0 n0 out0 hhit).1,
    fun g r ip0 n0 out0 hhit hrt hL ht => ?_,
    fun g r ip0 n0 out0 hhit => (sphere_hit_point_dist g r ip0 n0 out0 hhit).1,
    fun g r ip0 n0 out0 hhit hrt hL ht => ?_,
    fun g r ip0 v1 v2 v3 n1 n2 n3 n0 out0 b hsome =>
      tri_hit_point g r ip0 v1 v2 v3 n1 n2 n3 n0 out0 b hsome⟩
  · rw [(box_hit_point_dist g r ip0 n0 out0 hhit).2]
    exact pullback_dist_lt g r (boxEffT g r) hrt hL ht
  · rw [(sphere_hit_point_dist g r ip0 n0 out0 hhit).2]
    exact pullback_dist_lt g r (sphereEffT g r) hrt hL ht

/-- C10 counterexample: for the identity unit box and a ray starting just
inside the exit face (effective parameter `t = 0.00002 < 0.00005`), the exact
geometric distance `0.00002` is strictly smaller than the returned distance
`0.00008` — the opposite of the claimed unconditional strict inequality. -/
theorem claim_C10_counterexample :
    boxEffT gId ⟨⟨0, 0, 24999/50000⟩, ⟨0, 0, 1⟩⟩ = 1/50000 ∧
    Vec3.length ((⟨0, 0, 24999/50000⟩ : Vec3) -
        multiplyMV gId.transform (toPoint (rawPointOnRay
          (objRay gId ⟨⟨0, 0, 24999/50000⟩, ⟨0, 0, 1⟩⟩) (1/50000)))) <
      (boxIntersectionTest gId ⟨⟨0, 0, 24999/50000⟩, ⟨0, 0, 1⟩⟩ 0 0 false).dist := by
  refine ⟨boxEffT_rayB, ?_⟩
  rw [boxEval_rayB]
  have hraw : rawPointOnRay (objRay gId ⟨⟨0, 0, 24999/50000⟩, ⟨0, 0, 1⟩⟩) (1/50000) =
      ⟨0, 0, 1/2⟩ := by
    rw [objRay_gId_rayB, rawPointOnRay, normalize_unitZ]
    ext <;> norm_num
  rw [hraw]
  have hmp : multiplyMV gId.transform (toPoint ⟨0, 0, 1/2⟩) = ⟨0, 0, 1/2⟩ := by
    show multiplyMV Mat4.id4 _ = _
    rw [multiplyMV_id4_point]
  rw [hmp]
  have hdiff : ((⟨0, 0, 24999/50000⟩ : Vec3) - ⟨0, 0, 1/2⟩) = ⟨0, 0, -(1/50000)⟩ := by
    ext <;> norm_num
  rw [hdiff, length_00a]
  rw [show |(-(1/50000) : ℝ)| = 1/50000 by rw [abs_neg]; rw [abs_of_pos]; norm_num]
  norm_num

/-- Witness for the amended C10 at concrete hits of all three testers. -/
theorem claim_C10_witness :
    ((boxIntersectionTest gId ⟨⟨0, 0, -2⟩, ⟨0, 0, 1⟩⟩ 0 0 false).point =
      multiplyMV gId.transform (toPoint (getPointOnRay
        (objRay gId ⟨⟨0, 0, -2⟩, ⟨0, 0, 1⟩⟩) (boxEffT gId ⟨⟨0, 0, -2⟩, ⟨0, 0, 1⟩⟩)))) ∧
    ((boxIntersectionTest gId ⟨⟨0, 0, -2⟩, ⟨0, 0, 1⟩⟩ 0 0 false).dist <
      Vec3.length ((⟨0, 0, -2⟩ : Vec3) -
        multiplyMV gId.transform (toPoint (rawPointOnRay
          (objRay gId ⟨⟨0, 0, -2⟩, ⟨0, 0, 1⟩⟩) (boxEffT gId ⟨⟨0, 0, -2⟩, ⟨0, 0, 1⟩⟩))))) ∧
    ((sphereIntersectionTest gId ⟨⟨0, 0, -2⟩, ⟨0, 0, 1⟩⟩ 0 0 false).point =
      multiplyMV gId.transform (toPoint (getPointOnRay
        (objRay gId ⟨⟨0, 0, -2⟩, ⟨0, 0, 1⟩⟩) (sphereEffT gId ⟨⟨0, 0, -2⟩, ⟨0, 0, 1⟩⟩)))) ∧
    ((sphereIntersectionTest gId ⟨⟨0, 0, -2⟩, ⟨0, 0, 1⟩⟩ 0 0 false).dist <
      Vec3.length ((⟨0, 0, -2⟩ : Vec3) -
        multiplyMV gId.transform (toPoint (rawPointOnRay
          (objRay gId ⟨⟨0, 0, -2⟩, ⟨0, 0, 1⟩⟩) (sphereEffT gId ⟨⟨0, 0, -2⟩, ⟨0, 0, 1⟩⟩))))) ∧
    ((triangleInteractionTest gId ⟨⟨0, 0, -1⟩, ⟨0, 0, 1⟩⟩ 0
        ⟨0, 0, 0⟩ ⟨0, 1, 0⟩ ⟨1, 0, 0⟩ ⟨0, 0, -2⟩ ⟨0, 0, -1⟩ ⟨0, 0, -3⟩ 0 false).point =
      multiplyMV gId.transform (toPoint ((1 - 0 - 0 : ℝ) • ⟨0, 0, 0⟩ +
        (0 : ℝ) • ⟨0, 1, 0⟩ + (0 : ℝ) • ⟨1, 0, 0⟩))) := by
  have hrt : multiplyMV gId.transform
      (toPoint (multiplyMV gId.inverseTransform (toPoint ⟨0, 0, -2⟩))) =
      (⟨0, 0, -2⟩ : Vec3) := by
    show multiplyMV Mat4.id4 (toPoint (multiplyMV Mat4.id4 (toPoint ⟨0, 0, -2⟩))) = _
    rw [multiplyMV_id4_point, multiplyMV_id4_point]
  have hL : multiplyMV gId.transform
      (toDir ((objRay gId ⟨⟨0, 0, -2⟩, ⟨0, 0, 1⟩⟩).direction)) ≠ 0 := by
    rw [objRay_gId_rayA]
    show multiplyMV Mat4.id4 (toDir ⟨0, 0, 1⟩) ≠ 0
    rw [multiplyMV_id4_dir]
    intro h
    exact absurd (congrArg Vec3.z h) (by norm_num)
  exact ⟨claim_C10_pullback_amended.1 gId ⟨⟨0, 0, -2⟩, ⟨0, 0, 1⟩⟩ 0 0 false
      (by rw [boxEval_rayA]; norm_num),
    claim_C10_pullback_amended.2.1 gId ⟨⟨0, 0, -2⟩, ⟨0, 0, 1⟩⟩ 0 0 false
      (by rw [boxEval_rayA]; norm_num) hrt hL (by rw [boxEffT_rayA]; norm_num),
    claim_C10_pullback_amended.2.2.1 gId ⟨⟨0, 0, -2⟩, ⟨0, 0, 1⟩⟩ 0 0 false
      (by rw [sphereEval_rayA]; norm_num),
    claim_C10_pullback_amended.2.2.2.1 gId ⟨⟨0, 0, -2⟩, ⟨0, 0, 1⟩⟩ 0 0 false
      (by rw [sphereEval_rayA]; norm_num) hrt hL (by rw [sphereEffT_rayA]; norm_num),
    claim_C10_pullback_amended.2.2.2.2 gId ⟨⟨0, 0, -1⟩, ⟨0, 0, 1⟩⟩ 0
      ⟨0, 0, 0⟩ ⟨0, 1, 0⟩ ⟨1, 0, 0⟩ ⟨0, 0, -2⟩ ⟨0, 0, -1⟩ ⟨0, 0, -3⟩ 0 false ⟨0, 0, 1⟩
      (by rw [objRay_gId, normalize_unitZ]; exact intersectEval_hit)⟩

end
